import Mathlib

/-!
# Etherpad session coordinator (`pkg/models/etherpad.go`)

A shallow embedding of `EtherpadModel` and its operations, and the properties
of host selection, session creation and cleanup proved on it.

* The receiver `m *EtherpadModel` is passed explicitly and returned, because
  `checkStatus`, `selectHost` and `CleanPad` assign to `m.Host`, `m.ApiKey`,
  `m.NodeId`.
* Everything outside the process is split in two: `World` is what the
  operations change or leave a trace in (the HTTP requests issued, the Redis
  sets, the Redis commands, the room-service calls), `Env` is what answers
  (the HTTP replies, the JSON decoders, the uuid generator, the room service,
  `sort.Slice`).  The HTTP oracle sees the whole history of requests, so a
  host may answer differently every time it is asked.
* The Redis client is taken as always available: `SAdd`, `SRem`, `SCard`
  act on a map from keys to finite sets of members.  One process runs at a
  time: no other node changes the sets between two steps.
* `sort.Slice`, `json.Unmarshal`, `http.Get` and `uuid.NewString` are library
  code; they are fields of `Env`, and what is assumed of `sort.Slice` is stated
  where it is used (`SortContract`, `StableSort`).
* `log.Errorln` has no effect on any value and is left out.

The file has the definitions first (data model, outside world, operations,
the vocabulary of the properties, concrete inputs) and then the lemmas and
theorems.
-/

namespace Etherpad

/-! ## Data model -/

/-- The three fields of `config.EtherpadInfo` that the file reads. -/
structure EtherpadInfo where
  Id : String
  Host : String
  ApiKey : String
  deriving DecidableEq, Repr

/-- The field of `config.SharedNotePad` that the file reads. -/
structure SharedNotePad where
  EtherpadHosts : List EtherpadInfo
  deriving DecidableEq, Repr

/-- The struct `EtherpadModel`; `context`, `rc` and `rs` are the handles on the
outside world, which live in `World` and `Env`. -/
structure EtherpadModel where
  SharedNotePad : SharedNotePad
  NodeId : String
  Host : String
  ApiKey : String
  deriving DecidableEq, Repr

/-- The struct `EtherpadDataTypes`. -/
structure EtherpadDataTypes where
  AuthorID : String
  GroupID : String
  SessionID : String
  PadID : String
  ReadOnlyID : String
  TotalPads : Int
  TotalSessions : Int
  TotalActivePads : Int
  deriving DecidableEq, Repr

/-- The struct `EtherpadHttpRes`; `Code` is an `int64` and may be negative. -/
structure EtherpadHttpRes where
  Code : Int
  Message : String
  Data : EtherpadDataTypes
  deriving DecidableEq, Repr

/-- The constant `APIVersion`. -/
def APIVersion : String := "1.2.15"

/-- The constant `EtherpadKey`, the prefix of the Redis key of a host's active set. -/
def EtherpadKey : String := "pnm:etherpad:"

/-- The constructor `NewEtherpadModel`; the global `config.AppCnf.SharedNotePad`
is its argument. -/
def NewEtherpadModel (cfg : SharedNotePad) : EtherpadModel :=
  { SharedNotePad := cfg, NodeId := "", Host := "", ApiKey := "" }

/-- The struct `CreateSessionRes`. -/
structure CreateSessionRes where
  PadId : String
  ReadOnlyPadId : String
  deriving DecidableEq, Repr

/-- The struct `SharedNotePadFeatures` of the room metadata, with the six
fields `addPadToRoomMetadata` writes. -/
structure SharedNotePadFeatures where
  AllowedSharedNotePad : Bool
  IsActive : Bool
  NodeId : String
  Host : String
  NotePadId : String
  ReadOnlyPadId : String
  deriving DecidableEq, Repr

/-- The `Features` member of `RoomMetadata`.  Its declaration is in another
file of the package; every feature other than the shared notepad is kept as
one payload `Others` that this file never looks into. -/
structure RoomCreateFeatures where
  Others : String
  SharedNotePadFeatures : SharedNotePadFeatures
  deriving DecidableEq, Repr

/-- The struct `RoomMetadata`.  Its declaration is in another file of the
package; every member other than `Features` is kept as one payload `Others`. -/
structure RoomMetadata where
  Others : String
  Features : RoomCreateFeatures
  deriving DecidableEq, Repr

/-- The local struct `host` of `selectHost`. -/
structure host where
  i : Nat
  id : String
  active : Int
  deriving DecidableEq, Repr

/-! ## The outside world -/

/-- One `http.Get`: the end point and the query values (`url.Values`, in the
order they were added). -/
structure Request where
  endPoint : String
  vals : List (String × String)
  deriving DecidableEq, Repr

/-- What `http.Get` followed by `ioutil.ReadAll` can give: no connection, or a
response with its status line and a body that was read or failed to read. -/
inductive HttpReply where
  | connectFailed
  | response (status : String) (body : Except String String)

/-- One command sent to the Redis client. -/
inductive RedisCmd where
  | SAdd (key member : String)
  | SRem (key member : String)
  | SCard (key : String)
  deriving DecidableEq, Repr

/-- One call of the room service. -/
inductive MetaOp where
  | Load (roomId : String)
  | Update (roomId : String) (meta : RoomMetadata)
  deriving DecidableEq, Repr

/-- The collaborators that answer.  `httpGet` gets the requests issued so far
(oldest first) and the new request.  `unmarshalRes` is `json.Unmarshal` into an
`EtherpadHttpRes`; `unmarshalMeta` is `json.Unmarshal` into a fresh
`RoomMetadata`: the struct it leaves behind, and its error (`none` for nil),
which may be set after members of the struct were written.  `sortSlice` is
`sort.Slice` with the comparison `hosts[i].active < hosts[j].active`. -/
structure Env where
  httpGet : List Request → Request → HttpReply
  unmarshalRes : String → Except String EtherpadHttpRes
  unmarshalMeta : String → RoomMetadata × Option String
  newUUID : String
  LoadRoomWithMetadata : String → Except String RoomMetadata
  UpdateRoomMetadataByStruct : String → RoomMetadata → Option String
  sortSlice : List host → List host

/-- The collaborators that change: the log of HTTP requests, the Redis sets,
the log of Redis commands and the log of room-service calls. -/
structure World where
  calls : List Request
  sets : String → Finset String
  redisLog : List RedisCmd
  metaLog : List MetaOp

/-- A returned value together with the receiver and the world after the call. -/
structure Res (α : Type) where
  ret : α
  m : EtherpadModel
  w : World

/-- Redis `SADD key member`. -/
def World.SAdd (w : World) (key member : String) : World :=
  { w with
    sets := Function.update w.sets key (insert member (w.sets key))
    redisLog := w.redisLog ++ [RedisCmd.SAdd key member] }

/-- Redis `SREM key member`. -/
def World.SRem (w : World) (key member : String) : World :=
  { w with
    sets := Function.update w.sets key ((w.sets key).erase member)
    redisLog := w.redisLog ++ [RedisCmd.SRem key member] }

/-- Redis `SCARD key`, with the value `c.Val()` reads from the reply. -/
def World.SCard (w : World) (key : String) : Int × World :=
  (((w.sets key).card : Int), { w with redisLog := w.redisLog ++ [RedisCmd.SCard key] })

/-! ## Operations -/

/-- The method `postToEtherpad`: one GET on `m.Host`, with `m.ApiKey` added to
the values, decoded into an envelope. -/
def postToEtherpad (env : Env) (m : EtherpadModel) (w : World) (method : String)
    (vals : List (String × String)) : Res (Except String EtherpadHttpRes) :=
  let endPoint := m.Host ++ "/api/" ++ APIVersion ++ "/" ++ method
  let vals := vals ++ [("apikey", m.ApiKey)]
  let req : Request := ⟨endPoint, vals⟩
  let w1 : World := { w with calls := w.calls ++ [req] }
  match env.httpGet w.calls req with
  | HttpReply.connectFailed => ⟨Except.error "can't connect to host", m, w1⟩
  | HttpReply.response status body =>
    if status ≠ "200 OK" then
      ⟨Except.error ("error code: " ++ status), m, w1⟩
    else
      match body with
      | Except.error e => ⟨Except.error e, m, w1⟩
      | Except.ok bytes =>
        match env.unmarshalRes bytes with
        | Except.error e => ⟨Except.error e, m, w1⟩
        | Except.ok mar => ⟨Except.ok mar, m, w1⟩

/-- The method `checkStatus`. -/
def checkStatus (env : Env) (m : EtherpadModel) (w : World) (h : EtherpadInfo) : Res Bool :=
  let m1 := { m with Host := h.Host, ApiKey := h.ApiKey }
  let r := postToEtherpad env m1 w "getStats" []
  match r.ret with
  | Except.error _ => ⟨false, r.m, r.w⟩
  | Except.ok _ => ⟨true, r.m, r.w⟩

/-- The method `createPad`. -/
def createPad (env : Env) (m : EtherpadModel) (w : World) (sessionId : String) :
    Res (Except String EtherpadHttpRes) :=
  postToEtherpad env m w "createPad" [("padID", sessionId)]

/-- The method `createReadonlyPad`. -/
def createReadonlyPad (env : Env) (m : EtherpadModel) (w : World) (sessionId : String) :
    Res (Except String EtherpadHttpRes) :=
  postToEtherpad env m w "getReadOnlyID" [("padID", sessionId)]

/-- The probing loop of `selectHost` (the `for i, h := range` over the
configured hosts), from index `i` on. -/
def selectHostLoop (env : Env) :
    Nat → List EtherpadInfo → EtherpadModel → World → List host → Res (List host)
  | _, [], m, w, hosts => ⟨hosts, m, w⟩
  | i, h :: rest, m, w, hosts =>
    let r := checkStatus env m w h
    if r.ret then
      let c := r.w.SCard (EtherpadKey ++ h.Id)
      selectHostLoop env (i + 1) rest r.m c.2 (hosts ++ [⟨i, h.Id, c.1⟩])
    else
      selectHostLoop env (i + 1) rest r.m r.w hosts

/-- The method `selectHost`; the returned value is the error (`none` for
`nil`).  The two index expressions `hosts[0]` and `EtherpadHosts[hosts[0].i]`
are in range whenever `sortSlice` keeps the elements of the slice; the branch
for an index out of range stands for the run-time panic. -/
def selectHost (env : Env) (m : EtherpadModel) (w : World) : Res (Option String) :=
  let r := selectHostLoop env 0 m.SharedNotePad.EtherpadHosts m w []
  if r.ret.length = 0 then
    ⟨some "no active etherpad host found", r.m, r.w⟩
  else
    match (env.sortSlice r.ret)[0]? with
    | none => ⟨some "panic: index out of range", r.m, r.w⟩
    | some h0 =>
      match r.m.SharedNotePad.EtherpadHosts[h0.i]? with
      | none => ⟨some "panic: index out of range", r.m, r.w⟩
      | some selectedHost =>
        ⟨none,
         { r.m with
           NodeId := selectedHost.Id, Host := selectedHost.Host, ApiKey := selectedHost.ApiKey },
         r.w⟩

/-- The method `addPadToRoomMetadata`; the returned value is the error. -/
def addPadToRoomMetadata (env : Env) (m : EtherpadModel) (w : World) (roomId : String)
    (c : CreateSessionRes) : Res (Option String) :=
  let w1 : World := { w with metaLog := w.metaLog ++ [MetaOp.Load roomId] }
  match env.LoadRoomWithMetadata roomId with
  | Except.error e => ⟨some e, m, w1⟩
  | Except.ok meta =>
    let f : SharedNotePadFeatures :=
      { AllowedSharedNotePad := meta.Features.SharedNotePadFeatures.AllowedSharedNotePad
        IsActive := true
        NodeId := m.NodeId
        Host := m.Host
        NotePadId := c.PadId
        ReadOnlyPadId := c.ReadOnlyPadId }
    let meta1 : RoomMetadata :=
      { meta with Features := { meta.Features with SharedNotePadFeatures := f } }
    let w2 : World := { w1 with metaLog := w1.metaLog ++ [MetaOp.Update roomId meta1] }
    ⟨env.UpdateRoomMetadataByStruct roomId meta1, m, w2⟩

/-- The method `CreateSession`; the returned value is the pair of Go results
`(*CreateSessionRes, error)`.  After the probes it issues two remote calls,
createPad and getReadOnlyID (the comment of the source speaks of creating
group, pad and session; the code is what is embedded). -/
def CreateSession (env : Env) (m : EtherpadModel) (w : World) (roomId : String) :
    Res (Option CreateSessionRes × Option String) :=
  if m.SharedNotePad.EtherpadHosts.length < 1 then
    ⟨(none, some "need at least one etherpad host"), m, w⟩
  else
    let s := selectHost env m w
    match s.ret with
    | some err => ⟨(none, some err), s.m, s.w⟩
    | none =>
      let PadId := env.newUUID
      -- step 1: create pad using session id
      let r1 := createPad env s.m s.w PadId
      match r1.ret with
      | Except.error err => ⟨(none, some err), r1.m, r1.w⟩
      | Except.ok r =>
        if r.Code > 0 then
          ⟨(none, some r.Message), r1.m, r1.w⟩
        else
          -- step 2: create readonly pad
          let r2 := createReadonlyPad env r1.m r1.w PadId
          match r2.ret with
          | Except.error err => ⟨(none, some err), r2.m, r2.w⟩
          | Except.ok r =>
            if r.Code > 0 then
              ⟨(none, some r.Message), r2.m, r2.w⟩
            else
              let res : CreateSessionRes := ⟨PadId, r.Data.ReadOnlyID⟩
              -- add roomId to redis for this node
              let w3 := r2.w.SAdd (EtherpadKey ++ r2.m.NodeId) roomId
              -- finally, update to room
              let a := addPadToRoomMetadata env r2.m w3 roomId res
              ⟨(some res, none), a.m, a.w⟩

/-- The lookup loop of `CleanPad`: every entry whose id is `nodeId` overwrites
`m.Host` and `m.ApiKey`. -/
def CleanPadLoop (nodeId : String) : List EtherpadInfo → EtherpadModel → EtherpadModel
  | [], m => m
  | h :: rest, m =>
    if h.Id = nodeId then
      CleanPadLoop nodeId rest { m with Host := h.Host, ApiKey := h.ApiKey }
    else
      CleanPadLoop nodeId rest m

/-- The method `CleanPad`; the returned value is the error.  It issues one
remote call, deletePad, and one Redis command, `SREM` (the comments of the
source speak of deleting group, session and pad, and of adding the room to
Redis; the code is what is embedded). -/
def CleanPad (env : Env) (m : EtherpadModel) (w : World) (roomId nodeId padId : String) :
    Res (Option String) :=
  let m1 := CleanPadLoop nodeId m.SharedNotePad.EtherpadHosts m
  if m1.Host = "" then
    ⟨some "no host found", m1, w⟩
  else
    -- step 1: delete pad
    let r := postToEtherpad env m1 w "deletePad" [("padID", padId)]
    let w2 := r.w.SRem (EtherpadKey ++ nodeId) roomId
    ⟨none, r.m, w2⟩

/-- The method `CleanAfterRoomEnd`; the returned value is the error.  The error
of `json.Unmarshal` is assigned to the blank identifier: only the struct it
left behind is used. -/
def CleanAfterRoomEnd (env : Env) (m : EtherpadModel) (w : World) (roomId metadata : String) :
    Res (Option String) :=
  let roomMeta := (env.unmarshalMeta metadata).1
  let np := roomMeta.Features.SharedNotePadFeatures
  if ¬ np.AllowedSharedNotePad then
    ⟨none, m, w⟩
  else
    CleanPad env m w roomId np.NodeId np.NotePadId

/-! ## Vocabulary of the properties -/

/-- The request `postToEtherpad` builds from the receiver. -/
def mkRequest (m : EtherpadModel) (method : String) (vals : List (String × String)) : Request :=
  ⟨m.Host ++ "/api/" ++ APIVersion ++ "/" ++ method, vals ++ [("apikey", m.ApiKey)]⟩

/-- The decoded answer to one request issued after the history `hist`. -/
def reply (env : Env) (hist : List Request) (req : Request) : Except String EtherpadHttpRes :=
  match env.httpGet hist req with
  | HttpReply.connectFailed => Except.error "can't connect to host"
  | HttpReply.response status body =>
    if status ≠ "200 OK" then Except.error ("error code: " ++ status)
    else
      match body with
      | Except.error e => Except.error e
      | Except.ok bytes => env.unmarshalRes bytes

/-- The request of the liveness probe of host `h`. -/
def statsRequest (h : EtherpadInfo) : Request :=
  ⟨h.Host ++ "/api/" ++ APIVersion ++ "/" ++ "getStats", [("apikey", h.ApiKey)]⟩

/-- The outcome of the probe of the `i`-th configured host in a scan that
starts after the requests `calls`: the value `checkStatus` returns for it, the
probes of the hosts before it having been issued.  (`checkStatus` reads
nothing of the receiver and only the request history of the world.) -/
def probeLive (env : Env) (calls : List Request) (hosts : List EtherpadInfo) (i : Nat) : Bool :=
  match hosts[i]? with
  | none => false
  | some h =>
    (checkStatus env (NewEtherpadModel ⟨hosts⟩)
      ⟨calls ++ (hosts.take i).map statsRequest, fun _ => ∅, [], []⟩ h).ret

/-- The cardinality of the active set of host `h`, as `SCARD` reports it. -/
def activeCount (w : World) (h : EtherpadInfo) : Int :=
  ((w.sets (EtherpadKey ++ h.Id)).card : Int)

/-- Only `SCARD` commands. -/
def onlySCard (l : List RedisCmd) : Prop := ∀ c ∈ l, ∃ key, c = RedisCmd.SCard key

/-- The state of the probing loop of `selectHost` before it looks at the host
of index `k`, for a scan started from receiver `m0` and world `w0`. -/
structure ScanInv (env : Env) (hosts : List EtherpadInfo) (m0 : EtherpadModel) (w0 : World)
    (k : Nat) (m : EtherpadModel) (w : World) (acc : List host) : Prop where
  le : k ≤ hosts.length
  calls : w.calls = w0.calls ++ (hosts.take k).map statsRequest
  sets : w.sets = w0.sets
  metaLog : w.metaLog = w0.metaLog
  redis : ∃ l, w.redisLog = w0.redisLog ++ l ∧ onlySCard l
  cfg : m.SharedNotePad = m0.SharedNotePad
  nodeId : m.NodeId = m0.NodeId
  mem : ∀ x, x ∈ acc ↔ ∃ i h, i < k ∧ hosts[i]? = some h ∧
    probeLive env w0.calls hosts i = true ∧ x = ⟨i, h.Id, activeCount w0 h⟩
  sorted : acc.Pairwise (fun a b => a.i < b.i)

/-- What Go documents of `sort.Slice` with the comparison of `selectHost`: the
slice is rearranged (same elements) into an order in which no element is less
than an earlier one.  Nothing is promised on the order of equal elements. -/
structure SortContract (sortSlice : List host → List host) : Prop where
  perm : ∀ l, (sortSlice l).Perm l
  sorted : ∀ l, (sortSlice l).Pairwise (fun a b => ¬ b.active < a.active)

/-- The order `hosts[i].active <= hosts[j].active` on the entries of `selectHost`. -/
def activeLE (a b : host) : Prop := a.active ≤ b.active

instance : DecidableRel activeLE := fun a b => inferInstanceAs (Decidable (a.active ≤ b.active))

instance : IsTotal host activeLE := ⟨fun a b => Int.le_total a.active b.active⟩

instance : IsTrans host activeLE := ⟨fun _ _ _ hab hbc => Int.le_trans hab hbc⟩

/-- A sort that keeps equal elements in their original order (insertion sort). -/
def stableSort (l : List host) : List host := l.insertionSort activeLE

/-- A sort keeps equal elements in their original order.  Go promises this of
`sort.SliceStable`, not of `sort.Slice`. -/
def StableSort (sortSlice : List host → List host) : Prop :=
  ∀ l a b, a.active = b.active → List.Sublist [a, b] l → List.Sublist [a, b] (sortSlice l)

/-- Compare the elements of two runs place by place and exchange a pair when
the one of the second run is less than the one of the first. -/
def exchange : List host → List host → List host × List host
  | x :: xs, y :: ys =>
    if y.active < x.active then (y :: (exchange xs ys).1, x :: (exchange xs ys).2)
    else (x :: (exchange xs ys).1, y :: (exchange xs ys).2)
  | xs, [] => (xs, [])
  | [], ys => ([], ys)

/-- One pass that compares each element with the one six places before it and
exchanges the two when they are out of order (on a slice of at most 12
elements). -/
def gapPass (l : List host) : List host :=
  (exchange (l.take 6) (l.drop 6)).1 ++ (exchange (l.take 6) (l.drop 6)).2

/-- A sort within the contract of `sort.Slice` that does not keep equal
elements in order: the gap-6 pass, then an insertion sort.  This is how the
quickSort of Go's `sort` package finished a slice of at most 12 elements before
Go 1.19. -/
def shortSliceSort (l : List host) : List host := (gapPass l).insertionSort activeLE

/-! ## Concrete configurations, environments and worlds -/

/-- Host A of the two-host configuration. -/
def hostA : EtherpadInfo := ⟨"node_a", "http://pad-a", "key-a"⟩

/-- Host B of the two-host configuration. -/
def hostB : EtherpadInfo := ⟨"node_b", "http://pad-b", "key-b"⟩

/-- The payload of every envelope of the examples; its `readOnlyID` is "r.ro1". -/
def data0 : EtherpadDataTypes := ⟨"", "", "", "", "r.ro1", 0, 0, 0⟩

/-- The metadata of a room that allows the shared notepad and has none yet. -/
def meta0 : RoomMetadata := ⟨"title", "recording", ⟨true, false, "", "", "", ""⟩⟩

/-- Every host answers every call with the success envelope. -/
def env0 : Env :=
  { httpGet := fun _ _ => HttpReply.response "200 OK" (Except.ok "body")
    unmarshalRes := fun _ => Except.ok ⟨0, "ok", data0⟩
    unmarshalMeta := fun _ => (meta0, none)
    newUUID := "pad-1"
    LoadRoomWithMetadata := fun _ => Except.ok meta0
    UpdateRoomMetadataByStruct := fun _ _ => none
    sortSlice := stableSort }

/-- A fresh receiver configured with hosts A and B. -/
def m0 : EtherpadModel := NewEtherpadModel ⟨[hostA, hostB]⟩

/-- Host A holds three rooms, host B one. -/
def w0 : World :=
  { calls := []
    sets := fun k =>
      if k = "pnm:etherpad:node_a" then {"r1", "r2", "r3"}
      else if k = "pnm:etherpad:node_b" then {"r4"} else ∅
    redisLog := []
    metaLog := [] }

/-- The createPad call is answered with code -1, every other call with code 0. -/
def envNegative : Env :=
  { env0 with
    httpGet := fun _ req =>
      if req.endPoint = "http://pad-b/api/1.2.15/createPad" then
        HttpReply.response "200 OK" (Except.ok "negative")
      else HttpReply.response "200 OK" (Except.ok "body")
    unmarshalRes := fun bytes =>
      if bytes = "negative" then Except.ok ⟨-1, "internal error", data0⟩
      else Except.ok ⟨0, "ok", data0⟩ }

/-- The createPad call is answered with code 1, every other call with code 0. -/
def envRejected : Env :=
  { env0 with
    httpGet := fun _ req =>
      if req.endPoint = "http://pad-b/api/1.2.15/createPad" then
        HttpReply.response "200 OK" (Except.ok "rejected")
      else HttpReply.response "200 OK" (Except.ok "body")
    unmarshalRes := fun bytes =>
      if bytes = "rejected" then Except.ok ⟨1, "padID does already exist", data0⟩
      else Except.ok ⟨0, "ok", data0⟩ }

/-- Every call is answered "200 OK" with an envelope of code 4. -/
def envWrongKey : Env :=
  { env0 with unmarshalRes := fun _ => Except.ok ⟨4, "no or wrong API Key", data0⟩ }

/-- The zero value of `RoomMetadata`. -/
def metaZero : RoomMetadata := ⟨"", "", ⟨false, false, "", "", "", ""⟩⟩

/-- A decoder with two failing texts.  On "not json" it fails before it writes
anything and leaves the zero value.  On "block then type error" it fails on a
member that comes after the shared-notepad block, which it has written by
then: allowed, on node_b, with pad-1.  Any other text decodes to a block with
the feature switched off. -/
def envDecode : Env :=
  { env0 with
    unmarshalMeta := fun s =>
      if s = "not json" then (metaZero, some "invalid character")
      else if s = "block then type error" then
        (⟨"", "", ⟨true, true, "node_b", "http://pad-b", "pad-1", "r.ro1"⟩⟩,
          some "cannot unmarshal number into string")
      else
        (⟨"title", "recording", ⟨false, true, "node_a", "http://pad-a", "pad-7", "r.7"⟩⟩, none) }

/-- A configuration whose only host has an empty `Host`. -/
def mNoUrl : EtherpadModel := NewEtherpadModel ⟨[⟨"node_c", "", "key-c"⟩]⟩

/-- Room r9 is in the active set of node_c. -/
def wNoUrl : World :=
  { calls := []
    sets := fun k => if k = "pnm:etherpad:node_c" then {"r9"} else ∅
    redisLog := []
    metaLog := [] }

/-- The room service cannot load the room. -/
def envLoadFails : Env :=
  { env0 with LoadRoomWithMetadata := fun _ => Except.error "room not found" }

/-- The room service loads the room and refuses the write. -/
def envWriteFails : Env :=
  { env0 with UpdateRoomMetadataByStruct := fun _ _ => some "write refused" }

/-- Three configured hosts with distinct ids; the first has an empty `Host`. -/
def mThree : EtherpadModel := NewEtherpadModel ⟨[⟨"node_z", "", "key-z"⟩, hostA, hostB]⟩

/-- The probe of an empty `Host` gets no connection; every other call is
answered with the success envelope. -/
def envNoScheme : Env :=
  { env0 with
    httpGet := fun _ req =>
      if req.endPoint = "/api/1.2.15/getStats" then HttpReply.connectFailed
      else HttpReply.response "200 OK" (Except.ok "body") }

/-- Seven configured hosts n0 .. n6. -/
def mSeven : EtherpadModel :=
  NewEtherpadModel
    ⟨[⟨"n0", "http://pad-0", "k0"⟩, ⟨"n1", "http://pad-1", "k1"⟩, ⟨"n2", "http://pad-2", "k2"⟩,
      ⟨"n3", "http://pad-3", "k3"⟩, ⟨"n4", "http://pad-4", "k4"⟩, ⟨"n5", "http://pad-5", "k5"⟩,
      ⟨"n6", "http://pad-6", "k6"⟩]⟩

/-- Host n0 holds one room, every other host none. -/
def wSeven : World :=
  { calls := []
    sets := fun k => if k = "pnm:etherpad:n0" then {"r1"} else ∅
    redisLog := []
    metaLog := [] }

/-- Every host answers; the sort is within the contract and not stable. -/
def envSeven : Env := { env0 with sortSlice := shortSliceSort }

/-! ## Lemmas and theorems -/

theorem postToEtherpad_eq (env : Env) (m : EtherpadModel) (w : World) (method : String)
    (vals : List (String × String)) :
    postToEtherpad env m w method vals =
      ⟨reply env w.calls (mkRequest m method vals), m,
        { w with calls := w.calls ++ [mkRequest m method vals] }⟩ := by
  simp only [postToEtherpad, reply, mkRequest]
  generalize env.httpGet w.calls _ = g
  cases g with
  | connectFailed => rfl
  | response status body =>
    by_cases hs : status = "200 OK"
    · cases body with
      | error e => simp [hs]
      | ok bytes =>
        simp only [hs, ne_eq, not_true_eq_false, if_false]
        cases env.unmarshalRes bytes <;> rfl
    · simp [hs]

theorem checkStatus_eq (env : Env) (m : EtherpadModel) (w : World) (h : EtherpadInfo) :
    checkStatus env m w h =
      ⟨(reply env w.calls (statsRequest h)).isOk, { m with Host := h.Host, ApiKey := h.ApiKey },
        { w with calls := w.calls ++ [statsRequest h] }⟩ := by
  simp only [checkStatus, postToEtherpad_eq, mkRequest, statsRequest, List.nil_append]
  cases reply env w.calls _ <;> rfl

theorem probeLive_eq (env : Env) (calls : List Request) (hosts : List EtherpadInfo) (i : Nat)
    (h : EtherpadInfo) (hi : hosts[i]? = some h) :
    probeLive env calls hosts i =
      (reply env (calls ++ (hosts.take i).map statsRequest) (statsRequest h)).isOk := by
  simp only [probeLive, hi, checkStatus_eq]

theorem probeLive_lt (env : Env) (calls : List Request) (hosts : List EtherpadInfo) (i : Nat)
    (h : probeLive env calls hosts i = true) : i < hosts.length := by
  by_contra hc
  have : hosts[i]? = none := List.getElem?_eq_none (Nat.le_of_not_lt hc)
  simp [probeLive, this] at h

theorem ScanInv.init (env : Env) (m0 : EtherpadModel) (w0 : World) (hosts : List EtherpadInfo) :
    ScanInv env hosts m0 w0 0 m0 w0 [] where
  le := Nat.zero_le _
  calls := by simp
  sets := rfl
  metaLog := rfl
  redis := ⟨[], by simp, by intro c hc; cases hc⟩
  cfg := rfl
  nodeId := rfl
  mem := by intro x; simp
  sorted := List.Pairwise.nil

theorem drop_cons_getElem? {α : Type} (l : List α) (k : Nat) (a : α) (rest : List α)
    (h : l.drop k = a :: rest) : l[k]? = some a ∧ l.drop (k + 1) = rest := by
  constructor
  · have := List.head?_drop l k
    rw [h] at this
    simpa using this.symm
  · have := List.tail_drop l k
    rw [h] at this
    simpa using this.symm

theorem ScanInv.step (env : Env) (hosts : List EtherpadInfo) (m0 : EtherpadModel) (w0 : World)
    (k : Nat) (m : EtherpadModel) (w : World) (acc : List host) (h : EtherpadInfo)
    (hk : hosts[k]? = some h) (inv : ScanInv env hosts m0 w0 k m w acc) :
    let r := checkStatus env m w h
    (r.ret = true →
      ScanInv env hosts m0 w0 (k + 1) r.m (r.w.SCard (EtherpadKey ++ h.Id)).2
        (acc ++ [⟨k, h.Id, (r.w.SCard (EtherpadKey ++ h.Id)).1⟩])) ∧
    (r.ret = false → ScanInv env hosts m0 w0 (k + 1) r.m r.w acc) := by
  have hlt : k < hosts.length := by
    by_contra hc
    rw [List.getElem?_eq_none (Nat.le_of_not_lt hc)] at hk
    cases hk
  have htake : (hosts.take (k + 1)).map statsRequest =
      (hosts.take k).map statsRequest ++ [statsRequest h] := by
    rw [List.take_succ, hk]; simp
  have hlive : probeLive env w0.calls hosts k = (reply env w.calls (statsRequest h)).isOk := by
    rw [probeLive_eq env w0.calls hosts k h hk, inv.calls]
  obtain ⟨l, hl, hsc⟩ := inv.redis
  simp only [checkStatus_eq]
  constructor
  · intro hret
    refine ⟨hlt, ?_, inv.sets, inv.metaLog, ?_, inv.cfg, inv.nodeId, ?_, ?_⟩
    · simp [World.SCard, inv.calls, htake]
    · refine ⟨l ++ [RedisCmd.SCard (EtherpadKey ++ h.Id)], by simp [World.SCard, hl], ?_⟩
      intro c hc
      rcases List.mem_append.1 hc with hc | hc
      · exact hsc c hc
      · exact ⟨_, by simpa using hc⟩
    · intro x
      simp only [List.mem_append, List.mem_singleton, inv.mem x, World.SCard, inv.sets]
      constructor
      · rintro (⟨i, h1, hi, hh, hp, rfl⟩ | rfl)
        · exact ⟨i, h1, Nat.lt_succ_of_lt hi, hh, hp, rfl⟩
        · exact ⟨k, h, Nat.lt_succ_self k, hk, by rw [hlive]; exact hret, rfl⟩
      · rintro ⟨i, h1, hi, hh, hp, rfl⟩
        rcases Nat.lt_succ_iff_lt_or_eq.1 hi with hi | rfl
        · exact Or.inl ⟨i, h1, hi, hh, hp, rfl⟩
        · rw [hk] at hh
          cases hh
          exact Or.inr rfl
    · refine List.pairwise_append.2 ⟨inv.sorted, List.pairwise_singleton _ _, ?_⟩
      intro a ha b hb
      obtain ⟨i, h1, hi, -, -, rfl⟩ := (inv.mem a).1 ha
      rw [List.mem_singleton] at hb
      subst hb
      exact hi
  · intro hret
    refine ⟨hlt, ?_, inv.sets, inv.metaLog, ⟨l, hl, hsc⟩, inv.cfg, inv.nodeId, ?_, inv.sorted⟩
    · simp [inv.calls, htake]
    · intro x
      rw [inv.mem x]
      constructor
      · rintro ⟨i, h1, hi, hh, hp, rfl⟩
        exact ⟨i, h1, Nat.lt_succ_of_lt hi, hh, hp, rfl⟩
      · rintro ⟨i, h1, hi, hh, hp, rfl⟩
        rcases Nat.lt_succ_iff_lt_or_eq.1 hi with hi | rfl
        · exact ⟨i, h1, hi, hh, hp, rfl⟩
        · rw [hlive, hret] at hp
          cases hp

theorem selectHostLoop_inv (env : Env) (hosts : List EtherpadInfo) (m0 : EtherpadModel)
    (w0 : World) :
    ∀ (suffix : List EtherpadInfo) (k : Nat) (m : EtherpadModel) (w : World) (acc : List host),
      hosts.drop k = suffix → ScanInv env hosts m0 w0 k m w acc →
      ScanInv env hosts m0 w0 hosts.length (selectHostLoop env k suffix m w acc).m
        (selectHostLoop env k suffix m w acc).w (selectHostLoop env k suffix m w acc).ret := by
  intro suffix
  induction suffix with
  | nil =>
    intro k m w acc hd inv
    have hk : k = hosts.length :=
      Nat.le_antisymm inv.le (List.drop_eq_nil_iff.1 hd)
    subst hk
    simpa [selectHostLoop] using inv
  | cons h rest ih =>
    intro k m w acc hd inv
    obtain ⟨hk, hrest⟩ := drop_cons_getElem? hosts k h rest hd
    have hstep := ScanInv.step env hosts m0 w0 k m w acc h hk inv
    simp only [selectHostLoop]
    by_cases hret : (checkStatus env m w h).ret = true
    · simp only [hret, if_true]
      exact ih _ _ _ _ hrest (hstep.1 hret)
    · have hf : (checkStatus env m w h).ret = false := by simpa using hret
      simp only [hf, Bool.false_eq_true, if_false]
      exact ih _ _ _ _ hrest (hstep.2 hf)

theorem stableSort_contract : SortContract stableSort where
  perm := fun l => List.perm_insertionSort activeLE l
  sorted := fun l => by
    have h := List.sorted_insertionSort activeLE l
    exact List.Pairwise.imp (fun hab => Int.not_lt.2 hab) h

/-- The two outcomes of `selectHost`, read off the list `L` of live hosts the
probing loop collected. -/
theorem selectHost_cases (env : Env) (hs : SortContract env.sortSlice) (m : EtherpadModel)
    (w : World) (r : Res (List host))
    (hr : r = selectHostLoop env 0 m.SharedNotePad.EtherpadHosts m w [])
    (inv : ScanInv env m.SharedNotePad.EtherpadHosts m w m.SharedNotePad.EtherpadHosts.length
      r.m r.w r.ret) :
    (r.ret = [] ∧ selectHost env m w = ⟨some "no active etherpad host found", r.m, r.w⟩) ∨
    (∃ x rest h, env.sortSlice r.ret = x :: rest ∧ m.SharedNotePad.EtherpadHosts[x.i]? = some h ∧
      probeLive env w.calls m.SharedNotePad.EtherpadHosts x.i = true ∧
      x.active = activeCount w h ∧
      selectHost env m w =
        ⟨none, { r.m with NodeId := h.Id, Host := h.Host, ApiKey := h.ApiKey }, r.w⟩) := by
  by_cases hnil : r.ret = []
  · left
    refine ⟨hnil, ?_⟩
    simp only [selectHost, ← hr, hnil, List.length_nil, if_true]
  · right
    have hlen : r.ret.length ≠ 0 := fun h => hnil (List.length_eq_zero.1 h)
    have hperm := hs.perm r.ret
    cases hsort : env.sortSlice r.ret with
    | nil =>
      rw [hsort] at hperm
      exact absurd hperm.symm.eq_nil hnil
    | cons x rest =>
      have hx : x ∈ r.ret := hperm.subset (by rw [hsort]; exact List.mem_cons_self _ _)
      obtain ⟨i, h, -, hh, hp, rfl⟩ := (inv.mem x).1 hx
      refine ⟨_, rest, h, rfl, hh, hp, rfl, ?_⟩
      have hcfg : r.m.SharedNotePad.EtherpadHosts[i]? = some h := by rw [inv.cfg]; exact hh
      simp only [selectHost, ← hr, hlen, if_false, hsort, List.getElem?_cons_zero, hcfg]

theorem selectHost_scan (env : Env) (m : EtherpadModel) (w : World) :
    ScanInv env m.SharedNotePad.EtherpadHosts m w m.SharedNotePad.EtherpadHosts.length
      (selectHostLoop env 0 m.SharedNotePad.EtherpadHosts m w []).m
      (selectHostLoop env 0 m.SharedNotePad.EtherpadHosts m w []).w
      (selectHostLoop env 0 m.SharedNotePad.EtherpadHosts m w []).ret :=
  selectHostLoop_inv env _ m w _ 0 m w [] rfl (ScanInv.init env m w _)

/-- The head of the sorted slice is no more loaded than any live host. -/
theorem head_minimal (env : Env) (hs : SortContract env.sortSlice) (L : List host) (x : host)
    (rest : List host) (hsort : env.sortSlice L = x :: rest) (y : host) (hy : y ∈ L) :
    x.active ≤ y.active := by
  have hy2 : y ∈ x :: rest := by rw [← hsort]; exact (hs.perm L).symm.subset hy
  have hp := hs.sorted L
  rw [hsort] at hp
  rcases List.mem_cons.1 hy2 with rfl | hy3
  · exact le_refl _
  · exact Int.not_lt.1 (List.rel_of_pairwise_cons hp hy3)

/-- With a `sort.Slice` that sorts, one live host is enough for `selectHost`
to return nil. -/
theorem selectHost_ok_of_live (env : Env) (hs : SortContract env.sortSlice)
    (m : EtherpadModel) (w : World) (i : Nat)
    (hp : probeLive env w.calls m.SharedNotePad.EtherpadHosts i = true) :
    (selectHost env m w).ret = none := by
  have inv := selectHost_scan env m w
  rcases selectHost_cases env hs m w _ rfl inv with ⟨hnil, -⟩ | ⟨x, rest, h, -, -, -, -, heq⟩
  · have hlt := probeLive_lt env _ _ i hp
    have hget : m.SharedNotePad.EtherpadHosts[i]? = some (m.SharedNotePad.EtherpadHosts[i]) :=
      List.getElem?_eq_getElem hlt
    have hmem := (inv.mem ⟨i, _, _⟩).2 ⟨i, _, hlt, hget, hp, rfl⟩
    rw [hnil] at hmem
    cases hmem
  · rw [heq]

/-- C1. With a `sort.Slice` that sorts, `selectHost` returns nil iff some
configured host answers its probe; the host it then leaves in
`NodeId`/`Host`/`ApiKey` is a configured host that answered its probe and whose
active set is no larger than that of any host that answered; when no host
answers, the error is "no active etherpad host found". -/
theorem selectHost_least_loaded_live (env : Env) (hs : SortContract env.sortSlice)
    (m : EtherpadModel) (w : World) :
    ((selectHost env m w).ret = none ↔
      ∃ i, probeLive env w.calls m.SharedNotePad.EtherpadHosts i = true) ∧
    ((selectHost env m w).ret = none →
      ∃ i h, m.SharedNotePad.EtherpadHosts[i]? = some h ∧
        probeLive env w.calls m.SharedNotePad.EtherpadHosts i = true ∧
        (selectHost env m w).m.NodeId = h.Id ∧
        (selectHost env m w).m.Host = h.Host ∧
        (selectHost env m w).m.ApiKey = h.ApiKey ∧
        ∀ j g, m.SharedNotePad.EtherpadHosts[j]? = some g →
          probeLive env w.calls m.SharedNotePad.EtherpadHosts j = true →
          activeCount w h ≤ activeCount w g) ∧
    ((∀ i, probeLive env w.calls m.SharedNotePad.EtherpadHosts i = false) →
      (selectHost env m w).ret = some "no active etherpad host found") := by
  have inv := selectHost_scan env m w
  have hc := selectHost_cases env hs m w _ rfl inv
  rcases hc with ⟨hnil, heq⟩ | ⟨x, rest, h, hsort, hh, hp, hact, heq⟩
  · have hnone : ∀ i, probeLive env w.calls m.SharedNotePad.EtherpadHosts i = false := by
      intro i
      by_contra hne
      have hp : probeLive env w.calls m.SharedNotePad.EtherpadHosts i = true := by simpa using hne
      have hlt := probeLive_lt env _ _ i hp
      have hget : m.SharedNotePad.EtherpadHosts[i]? = some (m.SharedNotePad.EtherpadHosts[i]) :=
        List.getElem?_eq_getElem hlt
      have hmem := (inv.mem ⟨i, _, _⟩).2 ⟨i, _, hlt, hget, hp, rfl⟩
      rw [hnil] at hmem
      cases hmem
    refine ⟨?_, ?_, ?_⟩
    · rw [heq]
      constructor
      · intro h; cases h
      · rintro ⟨i, hi⟩
        rw [hnone i] at hi
        cases hi
    · rw [heq]; intro h; cases h
    · intro _; rw [heq]
  · refine ⟨?_, ?_, ?_⟩
    · rw [heq]
      exact ⟨fun _ => ⟨x.i, hp⟩, fun _ => rfl⟩
    · intro _
      refine ⟨x.i, h, hh, hp, by rw [heq], by rw [heq], by rw [heq], ?_⟩
      intro j g hg hpj
      have hlt := probeLive_lt env _ _ j hpj
      have hmem := (inv.mem ⟨j, g.Id, activeCount w g⟩).2 ⟨j, g, hlt, hg, hpj, rfl⟩
      have := head_minimal env hs _ x rest hsort _ hmem
      rw [hact] at this
      exact this
    · intro hall
      rw [hall x.i] at hp
      cases hp

theorem selectHost_least_loaded_live_witness :
    SortContract env0.sortSlice ∧
    (selectHost env0 m0 w0).m.NodeId = "node_b" ∧
    (selectHost env0 m0 (w0.SAdd "pnm:etherpad:node_b" "roomX")).m.NodeId = "node_b" ∧
    ((selectHost env0 m0 w0).ret = none ↔
      ∃ i, probeLive env0 w0.calls m0.SharedNotePad.EtherpadHosts i = true) :=
  ⟨stableSort_contract, by decide, by decide,
    (selectHost_least_loaded_live env0 stableSort_contract m0 w0).1⟩

theorem selectHost_w (env : Env) (m : EtherpadModel) (w : World) :
    (selectHost env m w).w = (selectHostLoop env 0 m.SharedNotePad.EtherpadHosts m w []).w := by
  simp only [selectHost]
  by_cases hlen : (selectHostLoop env 0 m.SharedNotePad.EtherpadHosts m w []).ret.length = 0
  · simp only [hlen, if_true]
  · simp only [hlen, if_false]
    cases (env.sortSlice (selectHostLoop env 0 m.SharedNotePad.EtherpadHosts m w []).ret)[0]? with
    | none => rfl
    | some h0 =>
      simp only []
      cases (selectHostLoop env 0 m.SharedNotePad.EtherpadHosts m w []).m.SharedNotePad.EtherpadHosts[h0.i]? <;> rfl

/-- Shape of a successful `selectHost`: the receiver holds the three fields of
one configured host; the configuration is untouched. -/
theorem selectHost_ok (env : Env) (m : EtherpadModel) (w : World)
    (h : (selectHost env m w).ret = none) :
    ∃ (i : Nat) (g : EtherpadInfo), m.SharedNotePad.EtherpadHosts[i]? = some g ∧
      (selectHost env m w).m.NodeId = g.Id ∧ (selectHost env m w).m.Host = g.Host ∧
      (selectHost env m w).m.ApiKey = g.ApiKey ∧
      (selectHost env m w).m.SharedNotePad = m.SharedNotePad := by
  have inv := selectHost_scan env m w
  simp only [selectHost] at h ⊢
  by_cases hlen : (selectHostLoop env 0 m.SharedNotePad.EtherpadHosts m w []).ret.length = 0
  · simp [hlen] at h
  · simp only [hlen, if_false] at h ⊢
    cases hs : (env.sortSlice (selectHostLoop env 0 m.SharedNotePad.EtherpadHosts m w []).ret)[0]? with
    | none => simp [hs] at h
    | some h0 =>
      simp only [hs] at h ⊢
      cases hg : (selectHostLoop env 0 m.SharedNotePad.EtherpadHosts m w []).m.SharedNotePad.EtherpadHosts[h0.i]? with
      | none => simp [hg] at h
      | some g =>
        simp only []
        refine ⟨h0.i, g, ?_, rfl, rfl, rfl, inv.cfg⟩
        rw [inv.cfg] at hg
        exact hg

/-- The world after `selectHost`: one probe per configured host was issued,
the Redis sets and the room-service log are as before, and Redis saw only
`SCARD` commands. -/
theorem selectHost_world (env : Env) (m : EtherpadModel) (w : World) :
    (selectHost env m w).w.calls = w.calls ++ m.SharedNotePad.EtherpadHosts.map statsRequest ∧
    (selectHost env m w).w.sets = w.sets ∧
    (selectHost env m w).w.metaLog = w.metaLog ∧
    ∃ l, (selectHost env m w).w.redisLog = w.redisLog ++ l ∧ onlySCard l := by
  have inv := selectHost_scan env m w
  rw [selectHost_w]
  refine ⟨?_, inv.sets, inv.metaLog, inv.redis⟩
  rw [inv.calls, List.take_length]

theorem createPad_eq (env : Env) (m : EtherpadModel) (w : World) (sessionId : String) :
    createPad env m w sessionId =
      ⟨reply env w.calls (mkRequest m "createPad" [("padID", sessionId)]), m,
        { w with calls := w.calls ++ [mkRequest m "createPad" [("padID", sessionId)]] }⟩ := by
  simp only [createPad, postToEtherpad_eq]

theorem createReadonlyPad_eq (env : Env) (m : EtherpadModel) (w : World) (sessionId : String) :
    createReadonlyPad env m w sessionId =
      ⟨reply env w.calls (mkRequest m "getReadOnlyID" [("padID", sessionId)]), m,
        { w with calls := w.calls ++ [mkRequest m "getReadOnlyID" [("padID", sessionId)]] }⟩ := by
  simp only [createReadonlyPad, postToEtherpad_eq]

theorem selectHost_ok_length (env : Env) (m : EtherpadModel) (w : World)
    (h : (selectHost env m w).ret = none) : ¬ m.SharedNotePad.EtherpadHosts.length < 1 := by
  obtain ⟨i, g, hg, -⟩ := selectHost_ok env m w h
  intro hlt
  have hnil : m.SharedNotePad.EtherpadHosts = [] := List.length_eq_zero.1 (by omega)
  rw [hnil] at hg
  simp at hg

/-- C2 (amended). For every envelope code `c > 0` and message `msg`: when host
selection succeeds and the createPad call returns the envelope with that code
and message, `CreateSession` returns no result and the error `msg`, leaves
every Redis set as it was (Redis saw `SCARD` commands only, no `SADD`), and
calls the room service neither for a load nor for a write. -/
theorem CreateSession_createPad_rejected (env : Env) (m : EtherpadModel) (w : World)
    (roomId : String) (c : Int) (msg : String) (d : EtherpadDataTypes) (hc : 0 < c)
    (hsel : (selectHost env m w).ret = none)
    (hpad : (createPad env (selectHost env m w).m (selectHost env m w).w env.newUUID).ret =
      Except.ok ⟨c, msg, d⟩) :
    (CreateSession env m w roomId).ret = (none, some msg) ∧
    (CreateSession env m w roomId).w.sets = w.sets ∧
    (CreateSession env m w roomId).w.metaLog = w.metaLog ∧
    ∃ l, (CreateSession env m w roomId).w.redisLog = w.redisLog ++ l ∧ onlySCard l := by
  have hlen := selectHost_ok_length env m w hsel
  obtain ⟨-, hsets, hmeta, hredis⟩ := selectHost_world env m w
  have hgt : c > 0 := hc
  have hcs : CreateSession env m w roomId =
      ⟨(none, some msg), (createPad env (selectHost env m w).m (selectHost env m w).w env.newUUID).m,
        (createPad env (selectHost env m w).m (selectHost env m w).w env.newUUID).w⟩ := by
    simp only [CreateSession, hlen, if_false, hsel, hpad, hgt, if_true]
  rw [hcs, createPad_eq]
  exact ⟨rfl, hsets, hmeta, hredis⟩

theorem CreateSession_createPad_rejected_witness :
    (0 : Int) < 1 ∧
    (selectHost envRejected m0 w0).ret = none ∧
    (CreateSession envRejected m0 w0 "room1").ret = (none, some "padID does already exist") ∧
    (CreateSession envRejected m0 w0 "room1").w.sets = w0.sets :=
  ⟨by decide, by decide,
    (CreateSession_createPad_rejected envRejected m0 w0 "room1" 1 "padID does already exist" data0
      (by decide) (by decide) rfl).1,
    (CreateSession_createPad_rejected envRejected m0 w0 "room1" 1 "padID does already exist" data0
      (by decide) (by decide) rfl).2.1⟩

/-- C2 (as stated, refuted). The createPad call returns a well-formed envelope
with the non-zero code -1; `CreateSession` returns a result and a nil error,
and has added the room to the active set of the selected host. -/
theorem CreateSession_negative_code_accepted :
    (selectHost envNegative m0 w0).ret = none ∧
    (createPad envNegative (selectHost envNegative m0 w0).m (selectHost envNegative m0 w0).w
      envNegative.newUUID).ret = Except.ok ⟨-1, "internal error", data0⟩ ∧
    (-1 : Int) ≠ 0 ∧
    (CreateSession envNegative m0 w0 "room1").ret = (some ⟨"pad-1", "r.ro1"⟩, none) ∧
    "room1" ∈ (CreateSession envNegative m0 w0 "room1").w.sets "pnm:etherpad:node_b" ∧
    RedisCmd.SAdd "pnm:etherpad:node_b" "room1" ∈
      (CreateSession envNegative m0 w0 "room1").w.redisLog ∧
    (CreateSession envNegative m0 w0 "room1").w.metaLog =
      [MetaOp.Load "room1",
        MetaOp.Update "room1"
          ⟨"title", "recording", ⟨true, true, "node_b", "http://pad-b", "pad-1", "r.ro1"⟩⟩] := by
  refine ⟨by decide, rfl, by decide, by decide, by decide, by decide, by decide⟩

/-- C5 (amended). `checkStatus` reports a host as live iff its getStats call
got a response with status "200 OK" whose body was read and decoded as an
envelope, whatever the code of that envelope; the one request it issues is the
getStats request built from the host's `Host` and `ApiKey`. -/
theorem checkStatus_live_iff_decoded (env : Env) (m : EtherpadModel) (w : World)
    (h : EtherpadInfo) :
    ((checkStatus env m w h).ret = true ↔
      ∃ bytes res, env.httpGet w.calls (statsRequest h) =
          HttpReply.response "200 OK" (Except.ok bytes) ∧
        env.unmarshalRes bytes = Except.ok res) ∧
    (checkStatus env m w h).w.calls = w.calls ++ [statsRequest h] := by
  rw [checkStatus_eq]
  refine ⟨?_, rfl⟩
  simp only [reply]
  cases hg : env.httpGet w.calls (statsRequest h) with
  | connectFailed => simp [Except.isOk, Except.toBool]
  | response status body =>
    by_cases hs : status = "200 OK"
    · subst hs
      cases body with
      | error e => simp [Except.isOk, Except.toBool]
      | ok bytes =>
        cases hu : env.unmarshalRes bytes with
        | error e => simp [Except.isOk, Except.toBool, hu]
        | ok res => simp [Except.isOk, Except.toBool, hu]
    · simp [Except.isOk, Except.toBool, hs]

/-- C5 (as stated, refuted). A host whose getStats response is a well-formed
envelope with the non-zero code 4 is reported live by `checkStatus`, and
`selectHost` selects it. -/
theorem checkStatus_live_on_error_code :
    envWrongKey.httpGet w0.calls (statsRequest hostA) =
      HttpReply.response "200 OK" (Except.ok "body") ∧
    envWrongKey.unmarshalRes "body" = Except.ok ⟨4, "no or wrong API Key", data0⟩ ∧
    (4 : Int) ≠ 0 ∧
    (checkStatus envWrongKey (NewEtherpadModel ⟨[hostA]⟩) w0 hostA).ret = true ∧
    (selectHost envWrongKey (NewEtherpadModel ⟨[hostA]⟩) w0).ret = none ∧
    (selectHost envWrongKey (NewEtherpadModel ⟨[hostA]⟩) w0).m.NodeId = "node_a" :=
  ⟨rfl, rfl, by decide, by decide, by decide, by decide⟩

/-- When `CleanPad` returns nil it has sent `SREM`: the Redis log is longer. -/
theorem CleanPad_not_silent (env : Env) (m : EtherpadModel) (w : World)
    (roomId nodeId padId : String) :
    CleanPad env m w roomId nodeId padId ≠ ⟨none, m, w⟩ := by
  intro heq
  by_cases hh : (CleanPadLoop nodeId m.SharedNotePad.EtherpadHosts m).Host = ""
  · have hret : (CleanPad env m w roomId nodeId padId).ret = some "no host found" := by
      simp only [CleanPad, hh, if_true]
    rw [heq] at hret
    cases hret
  · have hlog : (CleanPad env m w roomId nodeId padId).w.redisLog =
        w.redisLog ++ [RedisCmd.SRem (EtherpadKey ++ nodeId) roomId] := by
      simp only [CleanPad, hh, if_false, postToEtherpad_eq, World.SRem]
    rw [heq] at hlog
    have hlen := congrArg List.length hlog
    simp at hlen

/-- C9 (amended). `CleanAfterRoomEnd` returns nil and leaves the receiver and
the whole world (request log, Redis sets, Redis log, room-service log) as they
were exactly when the struct that `json.Unmarshal` left behind has
`AllowedSharedNotePad = false`, whether or not the decoder reported an error.
So metadata that lacks the block, and metadata whose decoding fails with the
flag not written, are no-ops; metadata whose decoding fails after the flag was
written as true is not. -/
theorem CleanAfterRoomEnd_noop_iff_decoded_flag_off (env : Env) (m : EtherpadModel) (w : World)
    (roomId metadata : String) :
    CleanAfterRoomEnd env m w roomId metadata = ⟨none, m, w⟩ ↔
      (env.unmarshalMeta metadata).1.Features.SharedNotePadFeatures.AllowedSharedNotePad =
        false := by
  constructor
  · intro heq
    by_contra hne
    have htrue : (env.unmarshalMeta metadata).1.Features.SharedNotePadFeatures.AllowedSharedNotePad
        = true := by simpa using hne
    simp only [CleanAfterRoomEnd, htrue, not_true_eq_false, if_false] at heq
    exact CleanPad_not_silent env m w roomId _ _ heq
  · intro h
    simp [CleanAfterRoomEnd, h]

/-- C9 (as stated, refuted). The metadata "block then type error" fails to
decode, the decoder having written the block as allowed on node_b with pad-1.
`CleanAfterRoomEnd` sends deletePad to host B, sends `SREM`, takes room r4 out
of the active set of node_b and overwrites `Host` and `ApiKey` of the receiver.
The metadata "not json" fails to decode with nothing written, and nothing
happens. -/
theorem CleanAfterRoomEnd_failed_decode_cleans :
    (envDecode.unmarshalMeta "block then type error").2 ≠ none ∧
    (CleanAfterRoomEnd envDecode m0 w0 "r4" "block then type error").ret = none ∧
    (CleanAfterRoomEnd envDecode m0 w0 "r4" "block then type error").w.calls =
      [⟨"http://pad-b/api/1.2.15/deletePad", [("padID", "pad-1"), ("apikey", "key-b")]⟩] ∧
    (CleanAfterRoomEnd envDecode m0 w0 "r4" "block then type error").w.redisLog =
      [RedisCmd.SRem "pnm:etherpad:node_b" "r4"] ∧
    "r4" ∈ w0.sets "pnm:etherpad:node_b" ∧
    "r4" ∉ (CleanAfterRoomEnd envDecode m0 w0 "r4" "block then type error").w.sets
      "pnm:etherpad:node_b" ∧
    m0.Host = "" ∧
    (CleanAfterRoomEnd envDecode m0 w0 "r4" "block then type error").m.Host = "http://pad-b" ∧
    (envDecode.unmarshalMeta "not json").2 ≠ none ∧
    (CleanAfterRoomEnd envDecode m0 w0 "r4" "not json").w.calls = [] ∧
    (CleanAfterRoomEnd envDecode m0 w0 "r4" "not json").w.redisLog = [] :=
  ⟨by decide, by decide, by decide, by decide, by decide, by decide, by decide, by decide,
    by decide, by decide, by decide⟩

/-- The receiver after the lookup loop of `CleanPad`: the fields of the last
configured host with the id, or the receiver as it was when no host has it. -/
theorem CleanPadLoop_eq (nodeId : String) :
    ∀ (hosts : List EtherpadInfo) (m : EtherpadModel),
      CleanPadLoop nodeId hosts m =
        match (hosts.filter (fun g => g.Id = nodeId)).getLast? with
        | none => m
        | some h => { m with Host := h.Host, ApiKey := h.ApiKey } := by
  intro hosts
  induction hosts with
  | nil => intro m; simp [CleanPadLoop]
  | cons g rest ih =>
    intro m
    by_cases hg : g.Id = nodeId
    · simp only [CleanPadLoop, hg, if_true, ih, List.filter_cons, decide_True,
        List.getLast?_cons]
      cases (List.filter (fun g => decide (g.Id = nodeId)) rest).getLast? <;> rfl
    · simp only [CleanPadLoop, hg, if_false, ih, List.filter_cons, decide_False]
      rfl

theorem CleanPadLoop_absent (nodeId : String) (hosts : List EtherpadInfo) (m : EtherpadModel)
    (habs : ∀ g ∈ hosts, g.Id ≠ nodeId) : CleanPadLoop nodeId hosts m = m := by
  rw [CleanPadLoop_eq]
  have : hosts.filter (fun g => g.Id = nodeId) = [] := by
    apply List.filter_eq_nil_iff.2
    intro g hg
    simpa using habs g hg
  rw [this]
  rfl

/-- On a receiver whose `Host` is empty (as `NewEtherpadModel` makes it),
`CleanPad` with an id no configured host has returns "no host found" and
touches nothing. -/
theorem CleanPad_unknown_host_fresh (env : Env) (m : EtherpadModel) (w : World)
    (roomId nodeId padId : String) (hfresh : m.Host = "")
    (habs : ∀ g ∈ m.SharedNotePad.EtherpadHosts, g.Id ≠ nodeId) :
    CleanPad env m w roomId nodeId padId = ⟨some "no host found", m, w⟩ := by
  simp [CleanPad, CleanPadLoop_absent nodeId _ m habs, hfresh]

/-- C3 (the code at the failing input). The receiver still holds the `Host`
and `ApiKey` of host B from an earlier `selectHost`; `CleanPad` is called with
the id "node_x", which no configured host has.  It returns nil, sends
deletePad to host B and sends `SREM` to Redis. -/
theorem CleanPad_unknown_host_stale_receiver :
    (∀ g ∈ m0.SharedNotePad.EtherpadHosts, g.Id ≠ "node_x") ∧
    (selectHost env0 m0 w0).m.Host = "http://pad-b" ∧
    (CleanPad env0 (selectHost env0 m0 w0).m w0 "r4" "node_x" "pad-1").ret = none ∧
    (CleanPad env0 (selectHost env0 m0 w0).m w0 "r4" "node_x" "pad-1").w.calls =
      [⟨"http://pad-b/api/1.2.15/deletePad", [("padID", "pad-1"), ("apikey", "key-b")]⟩] ∧
    (CleanPad env0 (selectHost env0 m0 w0).m w0 "r4" "node_x" "pad-1").w.redisLog =
      [RedisCmd.SRem "pnm:etherpad:node_x" "r4"] :=
  ⟨by decide, by decide, by decide, by decide, by decide⟩

/-- The run of `CleanPad` when the last configured host with the id has a
non-empty `Host`. -/
theorem CleanPad_found (env : Env) (m : EtherpadModel) (w : World)
    (roomId nodeId padId : String) (h : EtherpadInfo)
    (hlast : (m.SharedNotePad.EtherpadHosts.filter (fun g => g.Id = nodeId)).getLast? = some h)
    (hne : h.Host ≠ "") :
    CleanPad env m w roomId nodeId padId =
      ⟨none, { m with Host := h.Host, ApiKey := h.ApiKey },
        World.SRem
          { w with calls := w.calls ++
            [mkRequest { m with Host := h.Host, ApiKey := h.ApiKey } "deletePad" [("padID", padId)]] }
          (EtherpadKey ++ nodeId) roomId⟩ := by
  have hloop := CleanPadLoop_eq nodeId m.SharedNotePad.EtherpadHosts m
  rw [hlast] at hloop
  simp only [CleanPad, hloop, hne, if_false, postToEtherpad_eq]

/-- C4 (amended). When the last configured host with id `nodeId` has a
non-empty `Host`, `CleanPad` returns nil and the room is not a member of the
active set keyed `EtherpadKey + nodeId` afterwards, whatever the answer to the
deletePad call (success, rejection, transport or decoding failure); that call
goes to the `Host` of that configured host. -/
theorem CleanPad_releases (env : Env) (m : EtherpadModel) (w : World)
    (roomId nodeId padId : String) (h : EtherpadInfo)
    (hlast : (m.SharedNotePad.EtherpadHosts.filter (fun g => g.Id = nodeId)).getLast? = some h)
    (hne : h.Host ≠ "") :
    (CleanPad env m w roomId nodeId padId).ret = none ∧
    roomId ∉ (CleanPad env m w roomId nodeId padId).w.sets (EtherpadKey ++ nodeId) ∧
    (CleanPad env m w roomId nodeId padId).w.calls =
      w.calls ++ [⟨h.Host ++ "/api/" ++ APIVersion ++ "/" ++ "deletePad",
        [("padID", padId), ("apikey", h.ApiKey)]⟩] := by
  rw [CleanPad_found env m w roomId nodeId padId h hlast hne]
  refine ⟨rfl, ?_, ?_⟩
  · simp [World.SRem]
  · simp [World.SRem, mkRequest]

/-- C4 (as stated, refuted). The id "node_c" is the id of a configured host,
whose `Host` is empty; `CleanPad` returns "no host found" and the room is
still a member of the active set of node_c. -/
theorem CleanPad_present_host_not_released :
    (∃ g ∈ mNoUrl.SharedNotePad.EtherpadHosts, g.Id = "node_c") ∧
    (CleanPad env0 mNoUrl wNoUrl "r9" "node_c" "pad-9").ret = some "no host found" ∧
    "r9" ∈ (CleanPad env0 mNoUrl wNoUrl "r9" "node_c" "pad-9").w.sets "pnm:etherpad:node_c" :=
  ⟨by decide, by decide, by decide⟩

theorem CleanPad_releases_witness :
    (m0.SharedNotePad.EtherpadHosts.filter (fun g => g.Id = "node_b")).getLast? = some hostB ∧
    hostB.Host ≠ "" ∧
    (CleanPad env0 m0 w0 "r4" "node_b" "pad-1").ret = none ∧
    "r4" ∉ (CleanPad env0 m0 w0 "r4" "node_b" "pad-1").w.sets (EtherpadKey ++ "node_b") :=
  ⟨by decide, by decide,
    (CleanPad_releases env0 m0 w0 "r4" "node_b" "pad-1" hostB (by decide) (by decide)).1,
    (CleanPad_releases env0 m0 w0 "r4" "node_b" "pad-1" hostB (by decide) (by decide)).2.1⟩

/-- The effect of `addPadToRoomMetadata` on everything but the room-service
log: none. -/
theorem addPadToRoomMetadata_frame (env : Env) (m : EtherpadModel) (w : World) (roomId : String)
    (c : CreateSessionRes) :
    (addPadToRoomMetadata env m w roomId c).m = m ∧
    (addPadToRoomMetadata env m w roomId c).w.calls = w.calls ∧
    (addPadToRoomMetadata env m w roomId c).w.sets = w.sets ∧
    (addPadToRoomMetadata env m w roomId c).w.redisLog = w.redisLog := by
  simp only [addPadToRoomMetadata]
  cases env.LoadRoomWithMetadata roomId <;> exact ⟨rfl, rfl, rfl, rfl⟩

/-- The run of `CreateSession` when selection succeeds and both remote calls
are answered with envelopes whose code is not positive. -/
theorem CreateSession_run (env : Env) (m : EtherpadModel) (w : World) (roomId : String)
    (r1 r2 : EtherpadHttpRes)
    (hsel : (selectHost env m w).ret = none)
    (hpad : (createPad env (selectHost env m w).m (selectHost env m w).w env.newUUID).ret =
      Except.ok r1)
    (h1 : ¬ r1.Code > 0)
    (hro : (createReadonlyPad env (selectHost env m w).m
      (createPad env (selectHost env m w).m (selectHost env m w).w env.newUUID).w
      env.newUUID).ret = Except.ok r2)
    (h2 : ¬ r2.Code > 0) :
    CreateSession env m w roomId =
      ⟨(some ⟨env.newUUID, r2.Data.ReadOnlyID⟩, none), (selectHost env m w).m,
        (addPadToRoomMetadata env (selectHost env m w).m
          (World.SAdd (createReadonlyPad env (selectHost env m w).m
              (createPad env (selectHost env m w).m (selectHost env m w).w env.newUUID).w
              env.newUUID).w
            (EtherpadKey ++ (selectHost env m w).m.NodeId) roomId)
          roomId ⟨env.newUUID, r2.Data.ReadOnlyID⟩).w⟩ := by
  have hlen := selectHost_ok_length env m w hsel
  have hm1 : (createPad env (selectHost env m w).m (selectHost env m w).w env.newUUID).m =
      (selectHost env m w).m := by rw [createPad_eq]
  have hm2 : ∀ w1, (createReadonlyPad env (selectHost env m w).m w1 env.newUUID).m =
      (selectHost env m w).m := by intro w1; rw [createReadonlyPad_eq]
  simp only [CreateSession, hlen, if_false, hsel, hpad, h1, hm1, hro, h2, hm2,
    (addPadToRoomMetadata_frame env _ _ roomId _).1]

/-- A successful `CreateSession` went through every step. -/
theorem CreateSession_ok_inv (env : Env) (m : EtherpadModel) (w : World) (roomId : String)
    (res : CreateSessionRes) (hok : (CreateSession env m w roomId).ret = (some res, none)) :
    (selectHost env m w).ret = none ∧
    ∃ r1 r2,
      (createPad env (selectHost env m w).m (selectHost env m w).w env.newUUID).ret =
        Except.ok r1 ∧ ¬ r1.Code > 0 ∧
      (createReadonlyPad env (selectHost env m w).m
        (createPad env (selectHost env m w).m (selectHost env m w).w env.newUUID).w
        env.newUUID).ret = Except.ok r2 ∧ ¬ r2.Code > 0 ∧
      res = ⟨env.newUUID, r2.Data.ReadOnlyID⟩ := by
  have hm1 : (createPad env (selectHost env m w).m (selectHost env m w).w env.newUUID).m =
      (selectHost env m w).m := by rw [createPad_eq]
  simp only [CreateSession] at hok
  by_cases hlen : m.SharedNotePad.EtherpadHosts.length < 1
  · simp [hlen] at hok
  · simp only [hlen, if_false] at hok
    cases hsel : (selectHost env m w).ret with
    | some e => simp [hsel] at hok
    | none =>
      simp only [hsel] at hok
      cases hpad : (createPad env (selectHost env m w).m (selectHost env m w).w env.newUUID).ret with
      | error e => simp [hpad] at hok
      | ok r1 =>
        simp only [hpad] at hok
        by_cases h1 : r1.Code > 0
        · simp [h1] at hok
        · simp only [h1, if_false, hm1] at hok
          cases hro : (createReadonlyPad env (selectHost env m w).m
              (createPad env (selectHost env m w).m (selectHost env m w).w env.newUUID).w
              env.newUUID).ret with
          | error e => simp [hro] at hok
          | ok r2 =>
            simp only [hro] at hok
            by_cases h2 : r2.Code > 0
            · simp [h2] at hok
            · simp only [h2, if_false] at hok
              refine ⟨rfl, r1, r2, rfl, h1, rfl, h2, ?_⟩
              simp only [Prod.mk.injEq, Option.some.injEq, and_true] at hok
              exact hok.symm

/-- The world in which `CreateSession` calls `addPadToRoomMetadata`: after the
probes, the two remote calls and the `SADD`. -/
theorem CreateSession_world (env : Env) (m : EtherpadModel) (w : World) (roomId : String)
    (r1 r2 : EtherpadHttpRes)
    (hsel : (selectHost env m w).ret = none)
    (hpad : (createPad env (selectHost env m w).m (selectHost env m w).w env.newUUID).ret =
      Except.ok r1)
    (h1 : ¬ r1.Code > 0)
    (hro : (createReadonlyPad env (selectHost env m w).m
      (createPad env (selectHost env m w).m (selectHost env m w).w env.newUUID).w
      env.newUUID).ret = Except.ok r2)
    (h2 : ¬ r2.Code > 0) :
    (CreateSession env m w roomId).ret = (some ⟨env.newUUID, r2.Data.ReadOnlyID⟩, none) ∧
    (CreateSession env m w roomId).m = (selectHost env m w).m ∧
    (CreateSession env m w roomId).w.calls =
      w.calls ++ m.SharedNotePad.EtherpadHosts.map statsRequest ++
        [mkRequest (selectHost env m w).m "createPad" [("padID", env.newUUID)],
         mkRequest (selectHost env m w).m "getReadOnlyID" [("padID", env.newUUID)]] ∧
    (CreateSession env m w roomId).w.sets =
      Function.update w.sets (EtherpadKey ++ (selectHost env m w).m.NodeId)
        (insert roomId (w.sets (EtherpadKey ++ (selectHost env m w).m.NodeId))) ∧
    (∃ l, (CreateSession env m w roomId).w.redisLog =
        w.redisLog ++ l ++ [RedisCmd.SAdd (EtherpadKey ++ (selectHost env m w).m.NodeId) roomId] ∧
      onlySCard l) ∧
    (CreateSession env m w roomId).w.metaLog =
      (addPadToRoomMetadata env (selectHost env m w).m
        { (selectHost env m w).w with metaLog := w.metaLog } roomId
        ⟨env.newUUID, r2.Data.ReadOnlyID⟩).w.metaLog := by
  obtain ⟨hcalls, hsets, hmeta, l, hl, hsc⟩ := selectHost_world env m w
  rw [CreateSession_run env m w roomId r1 r2 hsel hpad h1 hro h2]
  obtain ⟨-, fcalls, fsets, fredis⟩ := addPadToRoomMetadata_frame env (selectHost env m w).m
    (World.SAdd (createReadonlyPad env (selectHost env m w).m
        (createPad env (selectHost env m w).m (selectHost env m w).w env.newUUID).w
        env.newUUID).w
      (EtherpadKey ++ (selectHost env m w).m.NodeId) roomId)
    roomId ⟨env.newUUID, r2.Data.ReadOnlyID⟩
  refine ⟨rfl, rfl, ?_, ?_, ⟨l, ?_, hsc⟩, ?_⟩
  · simp only [fcalls]
    simp [World.SAdd, createReadonlyPad_eq, createPad_eq, hcalls]
  · simp only [fsets]
    simp [World.SAdd, createReadonlyPad_eq, createPad_eq, hsets]
  · simp only [fredis]
    simp [World.SAdd, createReadonlyPad_eq, createPad_eq, hl]
  · simp only [addPadToRoomMetadata, World.SAdd, createReadonlyPad_eq, createPad_eq, hmeta]
    cases env.LoadRoomWithMetadata roomId <;> rfl

/-- C10. When host selection succeeds and createPad and getReadOnlyID are both
answered with an envelope of code 0, but the room-metadata load fails or the
room-metadata write fails, `CreateSession` returns a nil error with the
generated pad id and the read-only id of the alias response, the room is a
member of the selected host's active set afterwards, and the last Redis command
is the `SADD` (nothing takes the room out again); the error that
`addPadToRoomMetadata` returns for this session is dropped. -/
theorem CreateSession_metadata_failure_ignored (env : Env) (m : EtherpadModel) (w : World)
    (roomId : String) (r1 r2 : EtherpadHttpRes)
    (hsel : (selectHost env m w).ret = none)
    (hpad : (createPad env (selectHost env m w).m (selectHost env m w).w env.newUUID).ret =
      Except.ok r1)
    (h1 : r1.Code = 0)
    (hro : (createReadonlyPad env (selectHost env m w).m
      (createPad env (selectHost env m w).m (selectHost env m w).w env.newUUID).w
      env.newUUID).ret = Except.ok r2)
    (h2 : r2.Code = 0)
    (hmeta : (∃ e, env.LoadRoomWithMetadata roomId = Except.error e) ∨
      ∃ meta e, env.LoadRoomWithMetadata roomId = Except.ok meta ∧
        env.UpdateRoomMetadataByStruct roomId
          { meta with Features := { meta.Features with SharedNotePadFeatures :=
            ⟨meta.Features.SharedNotePadFeatures.AllowedSharedNotePad, true,
              (selectHost env m w).m.NodeId, (selectHost env m w).m.Host,
              env.newUUID, r2.Data.ReadOnlyID⟩ } } = some e) :
    (CreateSession env m w roomId).ret = (some ⟨env.newUUID, r2.Data.ReadOnlyID⟩, none) ∧
    roomId ∈ (CreateSession env m w roomId).w.sets
      (EtherpadKey ++ (selectHost env m w).m.NodeId) ∧
    (CreateSession env m w roomId).w.redisLog.getLast? =
      some (RedisCmd.SAdd (EtherpadKey ++ (selectHost env m w).m.NodeId) roomId) ∧
    ∀ w1, ∃ e, (addPadToRoomMetadata env (selectHost env m w).m w1 roomId
      ⟨env.newUUID, r2.Data.ReadOnlyID⟩).ret = some e := by
  have hc1 : ¬ r1.Code > 0 := by omega
  have hc2 : ¬ r2.Code > 0 := by omega
  obtain ⟨hret, -, -, hsets, ⟨l, hl, -⟩, -⟩ :=
    CreateSession_world env m w roomId r1 r2 hsel hpad hc1 hro hc2
  refine ⟨hret, ?_, ?_, ?_⟩
  · rw [hsets]; simp
  · rw [hl]; simp
  · intro w1
    rcases hmeta with ⟨e, he⟩ | ⟨meta, e, hload, hupd⟩
    · exact ⟨e, by simp only [addPadToRoomMetadata, he]⟩
    · exact ⟨e, by simp only [addPadToRoomMetadata, hload, hupd]⟩

theorem CreateSession_metadata_failure_ignored_witness :
    (selectHost envLoadFails m0 w0).ret = none ∧
    (CreateSession envLoadFails m0 w0 "room1").ret = (some ⟨"pad-1", "r.ro1"⟩, none) ∧
    "room1" ∈ (CreateSession envLoadFails m0 w0 "room1").w.sets "pnm:etherpad:node_b" ∧
    (CreateSession envWriteFails m0 w0 "room1").ret = (some ⟨"pad-1", "r.ro1"⟩, none) ∧
    "room1" ∈ (CreateSession envWriteFails m0 w0 "room1").w.sets "pnm:etherpad:node_b" :=
  ⟨by decide,
    (CreateSession_metadata_failure_ignored envLoadFails m0 w0 "room1" ⟨0, "ok", data0⟩
      ⟨0, "ok", data0⟩ (by decide) rfl rfl rfl rfl (Or.inl ⟨"room not found", rfl⟩)).1,
    (CreateSession_metadata_failure_ignored envLoadFails m0 w0 "room1" ⟨0, "ok", data0⟩
      ⟨0, "ok", data0⟩ (by decide) rfl rfl rfl rfl (Or.inl ⟨"room not found", rfl⟩)).2.1,
    (CreateSession_metadata_failure_ignored envWriteFails m0 w0 "room1" ⟨0, "ok", data0⟩
      ⟨0, "ok", data0⟩ (by decide) rfl rfl rfl rfl
      (Or.inr ⟨meta0, "write refused", rfl, rfl⟩)).1,
    (CreateSession_metadata_failure_ignored envWriteFails m0 w0 "room1" ⟨0, "ok", data0⟩
      ⟨0, "ok", data0⟩ (by decide) rfl rfl rfl rfl
      (Or.inr ⟨meta0, "write refused", rfl, rfl⟩)).2.1⟩

/-- Create then clean, when the last configured host with the selected id has
a non-empty `Host`: `CleanPad` returns nil and every Redis set is what it was
before `CreateSession`. -/
theorem CreateSession_CleanPad_of_last (env : Env) (m m2 : EtherpadModel) (w : World)
    (roomId : String) (res : CreateSessionRes) (h : EtherpadInfo)
    (hfree : ∀ g ∈ m.SharedNotePad.EtherpadHosts, roomId ∉ w.sets (EtherpadKey ++ g.Id))
    (hok : (CreateSession env m w roomId).ret = (some res, none))
    (hcfg : m2.SharedNotePad = m.SharedNotePad)
    (hlast : (m.SharedNotePad.EtherpadHosts.filter
      (fun g => g.Id = (CreateSession env m w roomId).m.NodeId)).getLast? = some h)
    (hne : h.Host ≠ "") :
    (CleanPad env m2 (CreateSession env m w roomId).w roomId
      (CreateSession env m w roomId).m.NodeId res.PadId).ret = none ∧
    (CleanPad env m2 (CreateSession env m w roomId).w roomId
      (CreateSession env m w roomId).m.NodeId res.PadId).w.sets = w.sets ∧
    ∀ g ∈ m.SharedNotePad.EtherpadHosts,
      activeCount (CleanPad env m2 (CreateSession env m w roomId).w roomId
        (CreateSession env m w roomId).m.NodeId res.PadId).w g = activeCount w g := by
  obtain ⟨hsel, r1, r2, hpad, h1, hro, h2, -⟩ := CreateSession_ok_inv env m w roomId res hok
  obtain ⟨-, hm, -, hsets, -, -⟩ := CreateSession_world env m w roomId r1 r2 hsel hpad h1 hro h2
  obtain ⟨i, g, hg, hid, -, -, -⟩ := selectHost_ok env m w hsel
  have hgmem : g ∈ m.SharedNotePad.EtherpadHosts := List.getElem?_mem hg
  have hnot : roomId ∉ w.sets (EtherpadKey ++ (selectHost env m w).m.NodeId) := by
    rw [hid]; exact hfree g hgmem
  rw [hm] at hlast ⊢
  rw [← hcfg] at hlast
  rw [CleanPad_found env m2 _ roomId _ res.PadId h hlast hne]
  have hcp : (World.SRem
      { (CreateSession env m w roomId).w with
        calls := (CreateSession env m w roomId).w.calls ++
          [mkRequest { m2 with Host := h.Host, ApiKey := h.ApiKey } "deletePad"
            [("padID", res.PadId)]] }
      (EtherpadKey ++ (selectHost env m w).m.NodeId) roomId).sets = w.sets := by
    simp only [World.SRem, hsets, Function.update_same, Function.update_idem,
      Finset.erase_insert hnot, Function.update_eq_self]
  refine ⟨rfl, hcp, ?_⟩
  intro g _
  simp only [activeCount, hcp]

/-- In a registry whose ids are distinct, the hosts with the id of a configured
host are that host alone. -/
theorem filter_id_eq_singleton : ∀ (hosts : List EtherpadInfo),
    (hosts.map (fun k => k.Id)).Nodup → ∀ g ∈ hosts,
    hosts.filter (fun k => k.Id = g.Id) = [g]
  | [], _, g, hg => by cases hg
  | a :: t, hnd, g, hg => by
    rw [List.map_cons, List.nodup_cons] at hnd
    obtain ⟨hnot, hndt⟩ := hnd
    rcases List.mem_cons.1 hg with rfl | hgt
    · have hnil : t.filter (fun k => k.Id = g.Id) = [] := by
        apply List.filter_eq_nil_iff.2
        intro k hk
        have hne : k.Id ≠ g.Id := fun he => hnot (List.mem_map.2 ⟨k, hk, he⟩)
        simpa using hne
      simp [List.filter_cons, hnil]
    · have hne : a.Id ≠ g.Id := fun he => hnot (List.mem_map.2 ⟨g, hgt, he.symm⟩)
      simp [List.filter_cons, hne, filter_id_eq_singleton t hndt g hgt]

/-- A configured host whose probe never connects is not live. -/
theorem probeLive_false_of_no_connection (env : Env) (calls : List Request)
    (hosts : List EtherpadInfo) (i : Nat) (g : EtherpadInfo) (hg : hosts[i]? = some g)
    (hconn : ∀ hist, env.httpGet hist (statsRequest g) = HttpReply.connectFailed) :
    probeLive env calls hosts i = false := by
  rw [probeLive_eq env calls hosts i g hg]
  simp only [reply, hconn]
  rfl

/-- C7. The ids of the configured hosts are distinct, `sort.Slice` sorts, and
the probe of a configured host with an empty `Host` never gets a connection.
The room is in no configured host's active set, `CreateSession` succeeds with
result `res`, leaving the selected id in `NodeId`, and `CleanPad` is then
called with the room, that id and the returned pad id (on any receiver with the
same configuration).  Then `CleanPad` returns nil, every Redis set is what it
was before `CreateSession`, and so is the cardinality of every configured
host's active set. -/
theorem CreateSession_CleanPad_restores (env : Env) (m m2 : EtherpadModel) (w : World)
    (roomId : String) (res : CreateSessionRes)
    (hids : (m.SharedNotePad.EtherpadHosts.map (fun k => k.Id)).Nodup)
    (hs : SortContract env.sortSlice)
    (hconn : ∀ hist, ∀ g ∈ m.SharedNotePad.EtherpadHosts, g.Host = "" →
      env.httpGet hist (statsRequest g) = HttpReply.connectFailed)
    (hfree : ∀ g ∈ m.SharedNotePad.EtherpadHosts, roomId ∉ w.sets (EtherpadKey ++ g.Id))
    (hok : (CreateSession env m w roomId).ret = (some res, none))
    (hcfg : m2.SharedNotePad = m.SharedNotePad) :
    (CleanPad env m2 (CreateSession env m w roomId).w roomId
      (CreateSession env m w roomId).m.NodeId res.PadId).ret = none ∧
    (CleanPad env m2 (CreateSession env m w roomId).w roomId
      (CreateSession env m w roomId).m.NodeId res.PadId).w.sets = w.sets ∧
    ∀ g ∈ m.SharedNotePad.EtherpadHosts,
      activeCount (CleanPad env m2 (CreateSession env m w roomId).w roomId
        (CreateSession env m w roomId).m.NodeId res.PadId).w g = activeCount w g := by
  obtain ⟨hsel, r1, r2, hpad, h1, hro, h2, -⟩ := CreateSession_ok_inv env m w roomId res hok
  obtain ⟨-, hm, -, -, -, -⟩ := CreateSession_world env m w roomId r1 r2 hsel hpad h1 hro h2
  have inv := selectHost_scan env m w
  rcases selectHost_cases env hs m w _ rfl inv with
    ⟨-, heq⟩ | ⟨x, rest, g, -, hg, hp, -, heq⟩
  · rw [heq] at hsel; cases hsel
  · have hgmem : g ∈ m.SharedNotePad.EtherpadHosts := List.getElem?_mem hg
    have hid : (CreateSession env m w roomId).m.NodeId = g.Id := by rw [hm, heq]
    have hne : g.Host ≠ "" := by
      intro hempty
      have hdead := probeLive_false_of_no_connection env w.calls
        m.SharedNotePad.EtherpadHosts x.i g hg (fun hist => hconn hist g hgmem hempty)
      rw [hdead] at hp
      cases hp
    have hlast : (m.SharedNotePad.EtherpadHosts.filter
        (fun k => k.Id = (CreateSession env m w roomId).m.NodeId)).getLast? = some g := by
      rw [hid, filter_id_eq_singleton _ hids g hgmem]
      rfl
    exact CreateSession_CleanPad_of_last env m m2 w roomId res g hfree hok hcfg hlast hne

theorem CreateSession_CleanPad_restores_witness :
    (mThree.SharedNotePad.EtherpadHosts.map (fun k => k.Id)).Nodup ∧
    SortContract envNoScheme.sortSlice ∧
    (∀ g ∈ mThree.SharedNotePad.EtherpadHosts, "room1" ∉ w0.sets (EtherpadKey ++ g.Id)) ∧
    (CreateSession envNoScheme mThree w0 "room1").ret = (some ⟨"pad-1", "r.ro1"⟩, none) ∧
    (CreateSession envNoScheme mThree w0 "room1").m.NodeId = "node_b" ∧
    ((CreateSession envNoScheme mThree w0 "room1").w.sets "pnm:etherpad:node_b").card = 2 ∧
    (CleanPad envNoScheme mThree (CreateSession envNoScheme mThree w0 "room1").w "room1"
      (CreateSession envNoScheme mThree w0 "room1").m.NodeId "pad-1").ret = none ∧
    (CleanPad envNoScheme mThree (CreateSession envNoScheme mThree w0 "room1").w "room1"
      (CreateSession envNoScheme mThree w0 "room1").m.NodeId "pad-1").w.sets = w0.sets :=
  have hconn : ∀ hist, ∀ g ∈ mThree.SharedNotePad.EtherpadHosts, g.Host = "" →
      envNoScheme.httpGet hist (statsRequest g) = HttpReply.connectFailed := by
    intro hist g hg he
    simp only [mThree, NewEtherpadModel, List.mem_cons, List.mem_singleton, List.not_mem_nil,
      or_false] at hg
    rcases hg with rfl | rfl | rfl
    · rfl
    · exact absurd he (by decide)
    · exact absurd he (by decide)
  ⟨by decide, stableSort_contract, by decide, by decide, by decide, by decide,
    (CreateSession_CleanPad_restores envNoScheme mThree mThree w0 "room1" ⟨"pad-1", "r.ro1"⟩
      (by decide) stableSort_contract hconn (by decide) (by decide) rfl).1,
    (CreateSession_CleanPad_restores envNoScheme mThree mThree w0 "room1" ⟨"pad-1", "r.ro1"⟩
      (by decide) stableSort_contract hconn (by decide) (by decide) rfl).2.1⟩

/-- C8. After a successful `CreateSession` whose metadata load succeeds, there
is one configured host `g`, the one `selectHost` left in the receiver, such
that: the requests issued after the probes are createPad and getReadOnlyID on
`g.Host` with `g.ApiKey` and the returned pad id; the one `SADD` is on the key
`EtherpadKey + g.Id`; and the metadata handed to the room service is the
loaded metadata with its shared-notepad block replaced by
`AllowedSharedNotePad` as loaded, `IsActive = true`, `NodeId = g.Id`,
`Host = g.Host`, `NotePadId` = the returned pad id and `ReadOnlyPadId` = the
`readOnlyID` of the alias response, every other member being as loaded. -/
theorem CreateSession_binds_one_host (env : Env) (m : EtherpadModel) (w : World)
    (roomId : String) (res : CreateSessionRes) (meta : RoomMetadata)
    (hok : (CreateSession env m w roomId).ret = (some res, none))
    (hload : env.LoadRoomWithMetadata roomId = Except.ok meta) :
    ∃ (i : Nat) (g : EtherpadInfo) (r2 : EtherpadHttpRes),
      m.SharedNotePad.EtherpadHosts[i]? = some g ∧
      (selectHost env m w).ret = none ∧
      (selectHost env m w).m.NodeId = g.Id ∧
      (selectHost env m w).m.Host = g.Host ∧
      (selectHost env m w).m.ApiKey = g.ApiKey ∧
      (CreateSession env m w roomId).w.calls =
        w.calls ++ m.SharedNotePad.EtherpadHosts.map statsRequest ++
          [⟨g.Host ++ "/api/" ++ APIVersion ++ "/" ++ "createPad",
              [("padID", res.PadId), ("apikey", g.ApiKey)]⟩,
           ⟨g.Host ++ "/api/" ++ APIVersion ++ "/" ++ "getReadOnlyID",
              [("padID", res.PadId), ("apikey", g.ApiKey)]⟩] ∧
      (createReadonlyPad env (selectHost env m w).m
        (createPad env (selectHost env m w).m (selectHost env m w).w env.newUUID).w
        env.newUUID).ret = Except.ok r2 ∧
      res.ReadOnlyPadId = r2.Data.ReadOnlyID ∧
      (∃ l, (CreateSession env m w roomId).w.redisLog =
          w.redisLog ++ l ++ [RedisCmd.SAdd (EtherpadKey ++ g.Id) roomId] ∧ onlySCard l) ∧
      (CreateSession env m w roomId).w.metaLog =
        w.metaLog ++ [MetaOp.Load roomId,
          MetaOp.Update roomId
            ⟨meta.Others, ⟨meta.Features.Others,
              ⟨meta.Features.SharedNotePadFeatures.AllowedSharedNotePad, true, g.Id, g.Host,
                res.PadId, res.ReadOnlyPadId⟩⟩⟩] := by
  obtain ⟨hsel, r1, r2, hpad, h1, hro, h2, hres⟩ := CreateSession_ok_inv env m w roomId res hok
  obtain ⟨-, -, hcalls, -, hredis, hmeta⟩ :=
    CreateSession_world env m w roomId r1 r2 hsel hpad h1 hro h2
  obtain ⟨i, g, hg, hid, hhost, hkey, -⟩ := selectHost_ok env m w hsel
  subst hres
  refine ⟨i, g, r2, hg, hsel, hid, hhost, hkey, ?_, hro, rfl, ?_, ?_⟩
  · rw [hcalls]
    simp only [mkRequest, hhost, hkey, List.singleton_append]
  · rw [← hid]; exact hredis
  · rw [hmeta]
    simp only [addPadToRoomMetadata, hload, hid, hhost, List.append_assoc, List.singleton_append]

theorem CreateSession_binds_one_host_witness :
    (CreateSession env0 m0 w0 "room1").ret = (some ⟨"pad-1", "r.ro1"⟩, none) ∧
    (CreateSession env0 m0 w0 "room1").w.calls =
      [⟨"http://pad-a/api/1.2.15/getStats", [("apikey", "key-a")]⟩,
       ⟨"http://pad-b/api/1.2.15/getStats", [("apikey", "key-b")]⟩,
       ⟨"http://pad-b/api/1.2.15/createPad", [("padID", "pad-1"), ("apikey", "key-b")]⟩,
       ⟨"http://pad-b/api/1.2.15/getReadOnlyID", [("padID", "pad-1"), ("apikey", "key-b")]⟩] ∧
    (CreateSession env0 m0 w0 "room1").w.metaLog =
      [MetaOp.Load "room1",
       MetaOp.Update "room1"
        ⟨"title", "recording", ⟨true, true, "node_b", "http://pad-b", "pad-1", "r.ro1"⟩⟩] ∧
    ∃ (i : Nat) (g : EtherpadInfo) (r2 : EtherpadHttpRes),
      m0.SharedNotePad.EtherpadHosts[i]? = some g ∧
      (selectHost env0 m0 w0).ret = none ∧
      (selectHost env0 m0 w0).m.NodeId = g.Id ∧
      (selectHost env0 m0 w0).m.Host = g.Host ∧
      (selectHost env0 m0 w0).m.ApiKey = g.ApiKey ∧
      (CreateSession env0 m0 w0 "room1").w.calls =
        w0.calls ++ m0.SharedNotePad.EtherpadHosts.map statsRequest ++
          [⟨g.Host ++ "/api/" ++ APIVersion ++ "/" ++ "createPad",
              [("padID", "pad-1"), ("apikey", g.ApiKey)]⟩,
           ⟨g.Host ++ "/api/" ++ APIVersion ++ "/" ++ "getReadOnlyID",
              [("padID", "pad-1"), ("apikey", g.ApiKey)]⟩] ∧
      (createReadonlyPad env0 (selectHost env0 m0 w0).m
        (createPad env0 (selectHost env0 m0 w0).m (selectHost env0 m0 w0).w env0.newUUID).w
        env0.newUUID).ret = Except.ok r2 ∧
      "r.ro1" = r2.Data.ReadOnlyID ∧
      (∃ l, (CreateSession env0 m0 w0 "room1").w.redisLog =
          w0.redisLog ++ l ++ [RedisCmd.SAdd (EtherpadKey ++ g.Id) "room1"] ∧ onlySCard l) ∧
      (CreateSession env0 m0 w0 "room1").w.metaLog =
        w0.metaLog ++ [MetaOp.Load "room1",
          MetaOp.Update "room1"
            ⟨meta0.Others, ⟨meta0.Features.Others,
              ⟨meta0.Features.SharedNotePadFeatures.AllowedSharedNotePad, true, g.Id, g.Host,
                "pad-1", "r.ro1"⟩⟩⟩] :=
  ⟨by decide, by decide, by decide,
    CreateSession_binds_one_host env0 m0 w0 "room1" ⟨"pad-1", "r.ro1"⟩ meta0 (by decide) rfl⟩

theorem exchange_perm : ∀ (xs ys : List host),
    ((exchange xs ys).1 ++ (exchange xs ys).2).Perm (xs ++ ys)
  | [], [] => by simp [exchange]
  | [], y :: ys => by simp [exchange]
  | x :: xs, [] => by simp [exchange]
  | x :: xs, y :: ys => by
    have ih := exchange_perm xs ys
    have hmid : ∀ (a b : host) (p q : List host),
        (a :: p ++ b :: q).Perm (a :: b :: (p ++ q)) := by
      intro a b p q
      exact List.Perm.cons a (List.perm_middle)
    by_cases hlt : y.active < x.active
    · simp only [exchange, hlt, if_true]
      refine (hmid y x _ _).trans ?_
      refine List.Perm.trans ?_ (hmid x y xs ys).symm
      exact (List.Perm.swap x y _).trans (List.Perm.cons x (List.Perm.cons y ih))
    · simp only [exchange, hlt, if_false]
      refine (hmid x y _ _).trans ?_
      refine List.Perm.trans ?_ (hmid x y xs ys).symm
      exact List.Perm.cons x (List.Perm.cons y ih)

theorem gapPass_perm (l : List host) : (gapPass l).Perm l := by
  have h := exchange_perm (l.take 6) (l.drop 6)
  rw [List.take_append_drop] at h
  exact h

theorem shortSliceSort_contract : SortContract shortSliceSort where
  perm := fun l => (List.perm_insertionSort activeLE (gapPass l)).trans (gapPass_perm l)
  sorted := fun l => by
    have h := List.sorted_insertionSort activeLE (gapPass l)
    exact List.Pairwise.imp (fun hab => Int.not_lt.2 hab) h

theorem stableSort_stable : StableSort stableSort := by
  intro l a b hab hsub
  exact List.pair_sublist_insertionSort (le_of_eq hab) hsub

/-- In a list whose entries have increasing indices, an entry with the smaller
index stands before one with the larger. -/
theorem pair_sublist_of_index_lt : ∀ (L : List host), L.Pairwise (fun a b => a.i < b.i) →
    ∀ y x, y ∈ L → x ∈ L → y.i < x.i → List.Sublist [y, x] L
  | [], _, y, _, hy, _, _ => by cases hy
  | a :: t, hp, y, x, hy, hx, hlt => by
    have hpt := List.Pairwise.of_cons hp
    have ha : ∀ b ∈ t, a.i < b.i := fun b hb => List.rel_of_pairwise_cons hp hb
    rcases List.mem_cons.1 hy with rfl | hyt
    · rcases List.mem_cons.1 hx with rfl | hxt
      · exact absurd hlt (Nat.lt_irrefl _)
      · exact List.Sublist.cons₂ _ (List.singleton_sublist.2 hxt)
    · rcases List.mem_cons.1 hx with rfl | hxt
      · exact absurd (ha y hyt) (Nat.lt_asymm hlt)
      · exact List.Sublist.cons _ (pair_sublist_of_index_lt t hpt y x hyt hxt hlt)

/-- For a sort that keeps equal elements in their original order (which
`sort.Slice` does not promise), the selected host is the first of the
configured list among the live hosts of smallest cardinality. -/
theorem selectHost_first_core (env : Env) (hs : SortContract env.sortSlice)
    (hst : StableSort env.sortSlice) (m : EtherpadModel) (w : World)
    (hret : (selectHost env m w).ret = none) :
    ∃ (i : Nat) (g : EtherpadInfo), m.SharedNotePad.EtherpadHosts[i]? = some g ∧
      probeLive env w.calls m.SharedNotePad.EtherpadHosts i = true ∧
      (selectHost env m w).m.NodeId = g.Id ∧
      (selectHost env m w).m.Host = g.Host ∧
      (selectHost env m w).m.ApiKey = g.ApiKey ∧
      (∀ j k, m.SharedNotePad.EtherpadHosts[j]? = some k →
        probeLive env w.calls m.SharedNotePad.EtherpadHosts j = true →
        activeCount w g ≤ activeCount w k) ∧
      (∀ j k, j < i → m.SharedNotePad.EtherpadHosts[j]? = some k →
        probeLive env w.calls m.SharedNotePad.EtherpadHosts j = true →
        activeCount w g < activeCount w k) := by
  have inv := selectHost_scan env m w
  rcases selectHost_cases env hs m w _ rfl inv with ⟨-, heq⟩ | ⟨x, rest, g, hsort, hg, hp, hact, heq⟩
  · rw [heq] at hret; cases hret
  · have hmin : ∀ j k, m.SharedNotePad.EtherpadHosts[j]? = some k →
        probeLive env w.calls m.SharedNotePad.EtherpadHosts j = true →
        activeCount w g ≤ activeCount w k := by
      intro j k hk hpj
      have hlt := probeLive_lt env _ _ j hpj
      have hmem := (inv.mem ⟨j, k.Id, activeCount w k⟩).2 ⟨j, k, hlt, hk, hpj, rfl⟩
      have := head_minimal env hs _ x rest hsort _ hmem
      rw [hact] at this
      exact this
    refine ⟨x.i, g, hg, hp, by rw [heq], by rw [heq], by rw [heq], hmin, ?_⟩
    intro j k hj hk hpj
    by_contra hnot
    have heqc : activeCount w k = activeCount w g :=
      Int.le_antisymm (Int.not_lt.1 hnot) (hmin j k hk hpj)
    have hlt := probeLive_lt env _ _ j hpj
    have hy := (inv.mem ⟨j, k.Id, activeCount w k⟩).2 ⟨j, k, hlt, hk, hpj, rfl⟩
    have hperm := hs.perm (selectHostLoop env 0 m.SharedNotePad.EtherpadHosts m w []).ret
    have hx : x ∈ (selectHostLoop env 0 m.SharedNotePad.EtherpadHosts m w []).ret :=
      hperm.subset (by rw [hsort]; exact List.mem_cons_self _ _)
    have hsub := pair_sublist_of_index_lt _ inv.sorted ⟨j, k.Id, activeCount w k⟩ x hy hx hj
    have hsub2 := hst _ ⟨j, k.Id, activeCount w k⟩ x (by rw [hact]; exact heqc) hsub
    rw [hsort] at hsub2
    have hnodup : (x :: rest).Nodup := by
      rw [← hsort]
      refine hperm.nodup_iff.2 ?_
      exact List.Pairwise.imp (fun hab heq => absurd hab (by rw [heq]; exact Nat.lt_irrefl _))
        inv.sorted
    have hxrest : x ∈ rest := by
      cases hsub2 with
      | cons _ h2 => exact h2.subset (by simp)
      | cons₂ _ h2 => exact absurd hj (Nat.lt_irrefl _)
    exact (List.nodup_cons.1 hnodup).1 hxrest

/-- Two lists of entries with increasing indices and the same members are the
same list. -/
theorem eq_of_index_sorted (L1 L2 : List host) (h1 : L1.Pairwise (fun a b => a.i < b.i))
    (h2 : L2.Pairwise (fun a b => a.i < b.i)) (hmem : ∀ x, x ∈ L1 ↔ x ∈ L2) : L1 = L2 := by
  haveI : IsAntisymm host (fun a b => a.i < b.i) :=
    ⟨fun a b hab hba => absurd hab (Nat.lt_asymm hba)⟩
  have hne : ∀ (a b : host), a.i < b.i → a ≠ b := by
    intro a b hab heq
    rw [heq] at hab
    exact Nat.lt_irrefl _ hab
  have hn1 : L1.Nodup := List.Pairwise.imp (fun {a b} hab => hne a b hab) h1
  have hn2 : L2.Nodup := List.Pairwise.imp (fun {a b} hab => hne a b hab) h2
  have hperm : L1.Perm L2 := (List.perm_ext_iff_of_nodup hn1 hn2).2 hmem
  exact List.eq_of_perm_of_sorted hperm h1 h2

/-- The list of live hosts that the probing loop hands to `sort.Slice` depends
on the host list, the probe outcomes and the cardinalities only. -/
theorem selectHostLoop_ret_congr (env env2 : Env) (m m2 : EtherpadModel) (w w2 : World)
    (hcfg : m2.SharedNotePad = m.SharedNotePad)
    (hprobe : ∀ i, probeLive env2 w2.calls m.SharedNotePad.EtherpadHosts i =
      probeLive env w.calls m.SharedNotePad.EtherpadHosts i)
    (hcard : ∀ g ∈ m.SharedNotePad.EtherpadHosts, activeCount w2 g = activeCount w g) :
    (selectHostLoop env2 0 m2.SharedNotePad.EtherpadHosts m2 w2 []).ret =
      (selectHostLoop env 0 m.SharedNotePad.EtherpadHosts m w []).ret := by
  have inv := selectHost_scan env m w
  have inv2 := selectHost_scan env2 m2 w2
  rw [hcfg] at inv2 ⊢
  refine eq_of_index_sorted _ _ inv2.sorted inv.sorted ?_
  intro x
  rw [inv2.mem x, inv.mem x]
  constructor
  · rintro ⟨i, h, hi, hh, hp, rfl⟩
    refine ⟨i, h, hi, hh, ?_, ?_⟩
    · rw [← hprobe i]; exact hp
    · rw [hcard h (List.getElem?_mem hh)]
  · rintro ⟨i, h, hi, hh, hp, rfl⟩
    refine ⟨i, h, hi, hh, ?_, ?_⟩
    · rw [hprobe i]; exact hp
    · rw [hcard h (List.getElem?_mem hh)]

/-- With the same `sort.Slice`, the same host list, the same probe outcomes and
the same cardinalities, two runs of `selectHost` return the same error and, on
success, leave the same host in the receiver.  Nothing is assumed of the sort. -/
theorem selectHost_congr (env env2 : Env) (m m2 : EtherpadModel) (w w2 : World)
    (hsort : env2.sortSlice = env.sortSlice)
    (hcfg : m2.SharedNotePad = m.SharedNotePad)
    (hprobe : ∀ i, probeLive env2 w2.calls m.SharedNotePad.EtherpadHosts i =
      probeLive env w.calls m.SharedNotePad.EtherpadHosts i)
    (hcard : ∀ g ∈ m.SharedNotePad.EtherpadHosts, activeCount w2 g = activeCount w g) :
    (selectHost env2 m2 w2).ret = (selectHost env m w).ret ∧
    ((selectHost env m w).ret = none →
      (selectHost env2 m2 w2).m.NodeId = (selectHost env m w).m.NodeId ∧
      (selectHost env2 m2 w2).m.Host = (selectHost env m w).m.Host ∧
      (selectHost env2 m2 w2).m.ApiKey = (selectHost env m w).m.ApiKey) := by
  have hL := selectHostLoop_ret_congr env env2 m m2 w w2 hcfg hprobe hcard
  have hc1 := (selectHost_scan env m w).cfg
  have hc2 := (selectHost_scan env2 m2 w2).cfg.trans hcfg
  simp only [selectHost, hL, hsort, hc1, hc2]
  by_cases hlen : (selectHostLoop env 0 m.SharedNotePad.EtherpadHosts m w []).ret.length = 0
  · simp [hlen]
  · simp only [hlen, if_false]
    cases (env.sortSlice (selectHostLoop env 0 m.SharedNotePad.EtherpadHosts m w []).ret)[0]? with
    | none => simp
    | some x =>
      simp only []
      cases m.SharedNotePad.EtherpadHosts[x.i]? with
      | none => simp
      | some g => exact ⟨rfl, fun _ => ⟨rfl, rfl, rfl⟩⟩

/-- C6 (amended). When `sort.Slice` sorts, a successful `selectHost` leaves in
the receiver a live host of smallest active-set cardinality, hence one of the
hosts that share the smallest cardinality when several do; which one is left
to `sort.Slice`.  And for any `sort.Slice` whatever, `selectHost` is a function
of the host list, the probe outcomes and the cardinalities: a second run that
agrees on them returns the same error and selects the same `NodeId`, `Host`
and `ApiKey`. -/
theorem selectHost_tie_minimal_and_deterministic (env : Env) (m : EtherpadModel) (w : World) :
    (SortContract env.sortSlice → (selectHost env m w).ret = none →
      ∃ (i : Nat) (g : EtherpadInfo), m.SharedNotePad.EtherpadHosts[i]? = some g ∧
        probeLive env w.calls m.SharedNotePad.EtherpadHosts i = true ∧
        (selectHost env m w).m.NodeId = g.Id ∧
        (selectHost env m w).m.Host = g.Host ∧
        (selectHost env m w).m.ApiKey = g.ApiKey ∧
        ∀ j k, m.SharedNotePad.EtherpadHosts[j]? = some k →
          probeLive env w.calls m.SharedNotePad.EtherpadHosts j = true →
          activeCount w g ≤ activeCount w k) ∧
    (∀ (env2 : Env) (m2 : EtherpadModel) (w2 : World),
      env2.sortSlice = env.sortSlice →
      m2.SharedNotePad.EtherpadHosts = m.SharedNotePad.EtherpadHosts →
      (∀ i, probeLive env2 w2.calls m.SharedNotePad.EtherpadHosts i =
        probeLive env w.calls m.SharedNotePad.EtherpadHosts i) →
      (∀ g ∈ m.SharedNotePad.EtherpadHosts, activeCount w2 g = activeCount w g) →
      (selectHost env2 m2 w2).ret = (selectHost env m w).ret ∧
      ((selectHost env m w).ret = none →
        (selectHost env2 m2 w2).m.NodeId = (selectHost env m w).m.NodeId ∧
        (selectHost env2 m2 w2).m.Host = (selectHost env m w).m.Host ∧
        (selectHost env2 m2 w2).m.ApiKey = (selectHost env m w).m.ApiKey)) := by
  constructor
  · intro hs hret
    have inv := selectHost_scan env m w
    rcases selectHost_cases env hs m w _ rfl inv with
      ⟨-, heq⟩ | ⟨x, rest, g, hsort, hg, hp, hact, heq⟩
    · rw [heq] at hret; cases hret
    · refine ⟨x.i, g, hg, hp, by rw [heq], by rw [heq], by rw [heq], ?_⟩
      intro j k hk hpj
      have hlt := probeLive_lt env _ _ j hpj
      have hmem := (inv.mem ⟨j, k.Id, activeCount w k⟩).2 ⟨j, k, hlt, hk, hpj, rfl⟩
      have := head_minimal env hs _ x rest hsort _ hmem
      rw [hact] at this
      exact this
  · intro env2 m2 w2 hsort hhosts hprobe hcard
    have hcfg : m2.SharedNotePad = m.SharedNotePad := by
      cases hm2 : m2.SharedNotePad
      cases hm : m.SharedNotePad
      rw [hm2, hm] at hhosts
      simp only at hhosts
      rw [hhosts]
    exact selectHost_congr env env2 m m2 w w2 hsort hcfg hprobe hcard

/-- C6 (as stated, refuted). All seven hosts are live, n0 holds one room and
n1 .. n6 none, so n1 is the first configured host of smallest cardinality.
With a sort that meets the contract of `sort.Slice`, `selectHost` selects n6;
with a stable sort it selects n1 on the same input. -/
theorem selectHost_tie_not_first :
    SortContract envSeven.sortSlice ∧
    (∀ i, i < 7 → probeLive envSeven wSeven.calls mSeven.SharedNotePad.EtherpadHosts i = true) ∧
    (mSeven.SharedNotePad.EtherpadHosts.map (activeCount wSeven)) = [1, 0, 0, 0, 0, 0, 0] ∧
    (selectHost envSeven mSeven wSeven).ret = none ∧
    (selectHost envSeven mSeven wSeven).m.NodeId = "n6" ∧
    (selectHost { envSeven with sortSlice := stableSort } mSeven wSeven).m.NodeId = "n1" :=
  ⟨shortSliceSort_contract, by decide, by decide, by decide, by decide, by decide⟩

end Etherpad
